import Mathlib

/-!
Verification of the data-preparation pipeline of the `streamlit_app`
dashboard repository (files `utils/io.py` and `utils/prep.py`).

Tabular data (pandas `DataFrame`s) is modelled shallowly: a cell is a
string, an exact rational number (pandas floats are modelled by `ℚ`), or
the explicit missing marker (`NaN`); a row is an association list from
column names to cells; a table is a column list plus a row list.
Python / pandas operations used by the source are translated one to one:
`pd.to_numeric(..., errors="coerce")`, `astype(str)` (which renders the
missing marker as the literal string `"nan"`), `dropna(subset=...)`,
boolean-mask filtering, `groupby(...).agg(...)` (group keys sorted
ascending, missing keys dropped, `mean` skipping missing values, `sum`
of an all-missing group giving 0), `sort_values` and `head`.
-/

/-- A pandas cell: a string, a (rational-valued) number, or the missing
marker `NaN`/`None`. -/
inductive Cell where
  | str (s : String)
  | num (q : ℚ)
  | missing
deriving DecidableEq, Repr

/-- A row: an association list from column names to cells. -/
abbrev Row := List (String × Cell)

/-- A table: its column names and its rows. -/
structure DataFrame where
  cols : List String
  rows : List Row
deriving DecidableEq, Repr

/-- `pd.DataFrame()`: the empty table. -/
def DataFrame.empty : DataFrame := ⟨[], []⟩

/-- Reading a cell of a row (`row[col]`, first entry wins); a key the
row does not carry reads as the missing marker. -/
def getCell : Row → String → Cell
  | [], _ => Cell.missing
  | kv :: t, c => if kv.1 = c then kv.2 else getCell t c

/-- Whether a row carries an entry for column `c`. -/
def hasKey : Row → String → Bool
  | [], _ => false
  | kv :: t, c => if kv.1 = c then true else hasKey t c

/-- Column assignment on one row (`df[c] = v` restricted to the row):
every entry keyed `c` is overwritten with `v`; a row without the key
gets the entry appended. -/
def setEntry (r : Row) (c : String) (v : Cell) : Row :=
  if hasKey r c then
    r.map (fun kv => if kv.1 = c then (kv.1, v) else kv)
  else r ++ [(c, v)]

/- ------------------------------------------------------------------
Age bucketing, `utils/io.py`, `_age_to_bucket_label`.
The function receives a string (its `isinstance` guard only handles
non-string inputs, which the string-typed model does not produce),
strips and upper-cases it, and tries, in order: the exact total /
under-18 / over-75 tokens, the anchored range pattern
`Y?(\d{1,2})\s*[-–]\s*(\d{1,2})`, the anchored threshold pattern
`Y?_?GE(\d{1,2})`, and finally the first `\d{1,2}` match anywhere in
the string; each regex is hand-compiled below (`re.match` anchors at
the start only; `\d{1,2}` is greedy, and backtracking on the digit
count can never make the surrounding pattern succeed, so the greedy
parse is exact).
------------------------------------------------------------------ -/

/-- Numeric value of a digit character. -/
def digitVal (c : Char) : Nat := c.toNat - 48

/-- Greedy `\d{1,2}` at the head of the input: one or two digits and
the rest of the input. -/
def takeDigits12 : List Char → Option (Nat × List Char)
  | [] => none
  | c :: rest =>
    if c.isDigit then
      match rest with
      | d :: rest2 =>
        if d.isDigit then some (10 * digitVal c + digitVal d, rest2)
        else some (digitVal c, rest)
      | [] => some (digitVal c, [])
    else none

/-- `\s*`: drop leading whitespace. -/
def skipWs : List Char → List Char
  | [] => []
  | c :: rest => if c.isWhitespace then skipWs rest else c :: rest

/-- `re.match(r"Y?(\d{1,2})\s*[-–]\s*(\d{1,2})", s)`: the two captured
numbers, when the pattern matches at the start of `s`. -/
def matchRange (cs : List Char) : Option (Nat × Nat) :=
  let cs1 := match cs with
    | 'Y' :: t => t
    | _ => cs
  match takeDigits12 cs1 with
  | none => none
  | some (lo, r1) =>
    match skipWs r1 with
    | c :: r3 =>
      if c = '-' ∨ c = '–' then
        match takeDigits12 (skipWs r3) with
        | some (hi, _) => some (lo, hi)
        | none => none
      else none
    | [] => none

/-- `re.match(r"Y?_?GE(\d{1,2})", s)`: the captured number, when the
pattern matches at the start of `s`. -/
def matchGE (cs : List Char) : Option Nat :=
  let cs1 := match cs with
    | 'Y' :: t => t
    | _ => cs
  let cs2 := match cs1 with
    | '_' :: t => t
    | _ => cs1
  match cs2 with
  | 'G' :: 'E' :: t =>
    match takeDigits12 t with
    | some (lo, _) => some lo
    | none => none
  | _ => none

/-- `re.findall(r"\d{1,2}", s)[0]`: the first (greedy, non-overlapping)
one-or-two-digit number anywhere in the string, when one exists. -/
def findFirstNum : List Char → Option Nat
  | [] => none
  | c :: rest =>
    if c.isDigit then
      some (match rest with
        | d :: _ => if d.isDigit then 10 * digitVal c + digitVal d else digitVal c
        | [] => digitVal c)
    else findFirstNum rest

/-- The shared breakpoint ladder `{18, 25, 35, 45, 55, 65, 75}`, keyed by
the lower bound.  The source repeats this ladder verbatim in its range,
threshold and fallback branches (the threshold branch writes the final
`≥ 75` test first, which selects the same bucket). -/
def bucketOfLo (lo : Nat) : String :=
  if lo < 18 then "<18"
  else if lo < 25 then "18-24"
  else if lo < 35 then "25-34"
  else if lo < 45 then "35-44"
  else if lo < 55 then "45-54"
  else if lo < 65 then "55-64"
  else if lo < 75 then "65-74"
  else "≥75"

/-- Leading whitespace removed. -/
def dropLeadWs : List Char → List Char
  | [] => []
  | c :: rest => if c.isWhitespace then dropLeadWs rest else c :: rest

/-- `s.strip()`: whitespace removed at both ends. -/
def trimChars (l : List Char) : List Char :=
  ((dropLeadWs ((dropLeadWs l.reverse)).reverse).reverse).reverse

/-- The branch cascade of `_age_to_bucket_label`, applied to the
already stripped and upper-cased character list. -/
def ageBucketCore (s : List Char) : String :=
  if s = "TOTAL".data ∨ s = "T".data then "Total"
  else if s = "Y_LT18".data ∨ s = "LT18".data ∨ s = "<18".data then "<18"
  else if s = "Y_GE75".data ∨ s = "GE75".data ∨ s = ">=75".data ∨ s = "≥75".data then "≥75"
  else
    match matchRange s with
    | some (lo, hi) =>
      if hi < 18 then "<18"
      else if 75 ≤ lo then "≥75"
      else bucketOfLo lo
    | none =>
      match matchGE s with
      | some lo => bucketOfLo lo
      | none =>
        match findFirstNum s with
        | some lo => bucketOfLo lo
        | none => "Total"

/-- `utils/io.py`, `_age_to_bucket_label`: collapse a free-form age code
into one of the nine standard buckets.  `.strip().upper()` is modelled
with ASCII upper-casing (the tokens the branches compare against are
ASCII). -/
def _age_to_bucket_label (age_code_or_label : String) : String :=
  ageBucketCore ((trimChars age_code_or_label.data).map Char.toUpper)

/-- The nine canonical age buckets. -/
def nineBuckets : List String :=
  ["Total", "<18", "18-24", "25-34", "35-44", "45-54", "55-64", "65-74", "≥75"]

/- ------------------------------------------------------------------
Kernel-computable rational arithmetic.  The library's `Rat.add`,
`Rat.mul`, `Rat.inv` are `@[irreducible]`, so the pipeline below uses
these equivalent normalising operations (the equivalences `qAdd_eq`,
`qMul_eq`, `qDiv_eq`, `qNeg_eq`, `qSum_eq` are proved once and used to
state theorems with the ordinary field operations).
------------------------------------------------------------------ -/

/-- Rational addition via `mkRat`, definitionally computable. -/
def qAdd (a b : ℚ) : ℚ := mkRat (a.num * b.den + b.num * a.den) (a.den * b.den)

/-- Rational multiplication via `mkRat`, definitionally computable. -/
def qMul (a b : ℚ) : ℚ := mkRat (a.num * b.num) (a.den * b.den)

/-- Rational division via `Rat.divInt`, definitionally computable
(division by zero gives zero, as in the library). -/
def qDiv (a b : ℚ) : ℚ := Rat.divInt (a.num * b.den) (a.den * b.num)

/-- Rational negation via `mkRat`, definitionally computable. -/
def qNeg (a : ℚ) : ℚ := mkRat (-a.num) a.den

/-- Sum of a list of rationals via `qAdd`. -/
def qSum : List ℚ → ℚ
  | [] => 0
  | x :: xs => qAdd x (qSum xs)

/- ------------------------------------------------------------------
Cleaning, `utils/prep.py`, `clean_data`.
------------------------------------------------------------------ -/

/-- One-or-more digits at the head of the input, accumulating into `acc`. -/
def parseDigitsAux : Nat → List Char → Nat × List Char
  | acc, [] => (acc, [])
  | acc, c :: rest =>
    if c.isDigit then parseDigitsAux (10 * acc + digitVal c) rest
    else (acc, c :: rest)

/-- The fractional part after the decimal point: value of the digit run,
its length, and the rest of the input. -/
def parseFracAux : Nat → Nat → List Char → Nat × Nat × List Char
  | acc, n, [] => (acc, n, [])
  | acc, n, c :: rest =>
    if c.isDigit then parseFracAux (10 * acc + digitVal c) (n + 1) rest
    else (acc, n, c :: rest)

/-- A run of digits that must reach the end of the input. -/
def parseAllDigits : List Char → Option Nat
  | [] => none
  | c :: rest =>
    if c.isDigit then
      match parseDigitsAux (digitVal c) rest with
      | (n, []) => some n
      | _ => none
    else none

/-- An optional exponent suffix (`e5`, `E-3`, ...) applied to `q`; the
input must be consumed entirely. -/
def applyExponent (q : ℚ) : List Char → Option ℚ
  | [] => some q
  | 'e' :: t =>
    (match t with
     | '+' :: t2 => (parseAllDigits t2).map (fun n => qMul q ((10 ^ n : ℕ) : ℚ))
     | '-' :: t2 => (parseAllDigits t2).map (fun n => qDiv q ((10 ^ n : ℕ) : ℚ))
     | _ => (parseAllDigits t).map (fun n => qMul q ((10 ^ n : ℕ) : ℚ)))
  | 'E' :: t =>
    (match t with
     | '+' :: t2 => (parseAllDigits t2).map (fun n => qMul q ((10 ^ n : ℕ) : ℚ))
     | '-' :: t2 => (parseAllDigits t2).map (fun n => qDiv q ((10 ^ n : ℕ) : ℚ))
     | _ => (parseAllDigits t).map (fun n => qMul q ((10 ^ n : ℕ) : ℚ)))
  | _ => none

/-- The digits-and-dot part of a decimal literal (after the sign):
`12`, `12.`, `12.5` or `.5`, each with an optional exponent. -/
def parseUnsigned (cs : List Char) : Option ℚ :=
  match cs with
  | '.' :: t =>
    (match t with
     | c :: _ =>
       if c.isDigit then
         match parseFracAux 0 0 t with
         | (fv, fn, rest) => applyExponent (qDiv (fv : ℚ) ((10 ^ fn : ℕ) : ℚ)) rest
       else none
     | [] => none)
  | c :: rest =>
    if c.isDigit then
      match parseDigitsAux (digitVal c) rest with
      | (ip, r1) =>
        match r1 with
        | '.' :: r2 =>
          (match parseFracAux 0 0 r2 with
           | (fv, fn, rest) =>
             applyExponent (qAdd (ip : ℚ) (qDiv (fv : ℚ) ((10 ^ fn : ℕ) : ℚ))) rest)
        | _ => applyExponent (ip : ℚ) r1
    else none
  | [] => none

/-- `pd.to_numeric(s, errors="coerce")` on a string: parse a decimal
literal (optional sign, digits, optional fraction and exponent,
surrounding whitespace ignored); anything else fails.  (Special floats
such as `"inf"`, which the rational model cannot carry, also fail;
`"nan"` coerces to the missing marker either way.) -/
def parseNum (s : String) : Option ℚ :=
  match trimChars s.data with
  | '+' :: t => parseUnsigned t
  | '-' :: t => (parseUnsigned t).map qNeg
  | cs => parseUnsigned cs

/-- `pd.to_numeric(x, errors="coerce")` on one cell: numbers and the
missing marker pass through, strings are parsed, failures become the
missing marker. -/
def toNumericCell : Cell → Cell
  | Cell.str s =>
    match parseNum s with
    | some q => Cell.num q
    | none => Cell.missing
  | Cell.num q => Cell.num q
  | Cell.missing => Cell.missing

/-- Decimal rendering of a rational (used only when `astype(str)` hits a
numeric cell; the dashboards' categorical columns carry strings, and no
claim evaluates this case — Python would render a float here). -/
def ratStr (q : ℚ) : String :=
  if q.den = 1 then toString q.num else toString q.num ++ "/" ++ toString q.den

/-- `astype(str)` on one cell: strings stay, numbers are rendered, and
the missing marker becomes the literal string `"nan"`. -/
def astypeStrCell : Cell → Cell
  | Cell.str s => Cell.str s
  | Cell.num q => Cell.str (ratStr q)
  | Cell.missing => Cell.str "nan"

/-- `utils/prep.py`: the declared numeric columns of `clean_data`. -/
def numeric_cols : List String :=
  ["poids1", "poidsTot", "txNonStand", "txStandDir", "txStandIndir",
   "txStandDirModBB", "txStandDirModBH", "txStandIndirModBB", "txStandIndirModBH"]

/-- `utils/prep.py`: the critical identifying columns of `clean_data`. -/
def critical_cols : List String := ["varTauxLib", "type"]

/-- `utils/prep.py`: the declared string columns of `clean_data`. -/
def string_cols : List String :=
  ["varTauxLib", "type", "varGroupage", "valGroupage", "varPartition", "valPartition"]

/-- `df[c] = f(df[c])` on one row: every entry keyed `c` is mapped. -/
def mapColRow (c : String) (f : Cell → Cell) (r : Row) : Row :=
  r.map (fun kv => if kv.1 = c then (kv.1, f kv.2) else kv)

/-- `for col in cs: if col in df.columns: df[col] = f(df[col])`,
restricted to one row (`cols` is the table's column list, constant
through the loop). -/
def applyCols (cols : List String) (cs : List String) (f : Cell → Cell) (r : Row) : Row :=
  cs.foldl (fun r' c => if c ∈ cols then mapColRow c f r' else r') r

/-- `for col in cs: if col in df.columns: df[col] = f(df[col])`. -/
def DataFrame.mapCols (df : DataFrame) (cs : List String) (f : Cell → Cell) : DataFrame :=
  { cols := df.cols, rows := df.rows.map (applyCols df.cols cs f) }

/-- `for col in cs: if col in df.columns: df = df.dropna(subset=[col])`. -/
def dropnaSubset (df : DataFrame) (cs : List String) : DataFrame :=
  cs.foldl
    (fun d c =>
      if c ∈ d.cols then
        { cols := d.cols, rows := d.rows.filter (fun r => getCell r c != Cell.missing) }
      else d)
    df

/-- `if 'annee' in df.columns: df['year'] = pd.to_numeric(df['annee'],
errors='coerce')`. -/
def addYear (df : DataFrame) : DataFrame :=
  if "annee" ∈ df.cols then
    { cols := if "year" ∈ df.cols then df.cols else df.cols ++ ["year"],
      rows := df.rows.map (fun r => setEntry r "year" (toNumericCell (getCell r "annee"))) }
  else df

/-- `utils/prep.py`, `clean_data`: numeric coercion of the declared
numeric columns, row drop on missing critical identifying fields,
derived `year` column, and string coercion of the declared string
columns, in source order. -/
def clean_data (df : DataFrame) : DataFrame :=
  DataFrame.mapCols
    (addYear (dropnaSubset (DataFrame.mapCols df numeric_cols toNumericCell) critical_cols))
    string_cols astypeStrCell

/- Row-level lemmas about `getCell`, `hasKey`, `setEntry`, `mapColRow`
and `applyCols`. -/

/-- The row-retention predicate of `clean_data`: both critical
identifying fields are present (not the missing marker). -/
def keepRow (r : Row) : Bool :=
  (getCell r "varTauxLib" != Cell.missing) && (getCell r "type" != Cell.missing)

/- ------------------------------------------------------------------
Grouped aggregation, `utils/prep.py` table builders.
`groupby(...).agg(...)` semantics: rows with a missing group key are
dropped, group keys are sorted ascending, `mean` skips missing values
(an all-missing group gives the missing marker), `sum` skips missing
values (an all-missing group gives 0); `reset_index` lays the key
columns out first, then the aggregated columns in dict order.
------------------------------------------------------------------ -/

/-- Lexicographic order on character lists (string order). -/
def chListLe : List Char → List Char → Bool
  | [], _ => true
  | _ :: _, [] => false
  | a :: as, b :: bs => if a = b then chListLe as bs else decide (a < b)

/-- A total order on cells: missing, then numbers, then strings (mixed
kinds never meet inside one pandas group-key column). -/
def cellLe (a b : Cell) : Bool :=
  match a, b with
  | Cell.missing, _ => true
  | _, Cell.missing => false
  | Cell.num p, Cell.num q => decide (p ≤ q)
  | Cell.num _, Cell.str _ => true
  | Cell.str _, Cell.num _ => false
  | Cell.str s, Cell.str t => chListLe s.data t.data

/-- Lexicographic order on group-key tuples. -/
def keyLe : List Cell → List Cell → Bool
  | [], _ => true
  | _ :: _, [] => false
  | a :: as, b :: bs => if a = b then keyLe as bs else cellLe a b

/-- `keyLe` as a relation (for `List.insertionSort`). -/
abbrev keyLeP (k1 k2 : List Cell) : Prop := keyLe k1 k2 = true

/-- Ascending comparison of two rows by the cell in column `c`
(`sort_values(c)`). -/
abbrev rowLeBy (c : String) (r1 r2 : Row) : Prop :=
  cellLe (getCell r1 c) (getCell r2 c) = true

/-- An aggregation function of the `agg` dict: `"mean"` or `"sum"`. -/
inductive AggFun where
  | mean
  | sum
deriving DecidableEq, Repr

/-- The numeric value of a cell, when it has one. -/
def numOf : Cell → Option ℚ
  | Cell.num q => some q
  | _ => none

/-- Apply one aggregation function to a column of cells. -/
def aggVals : AggFun → List Cell → Cell
  | AggFun.mean, cells =>
    if cells.filterMap numOf = [] then Cell.missing
    else Cell.num (qDiv (qSum (cells.filterMap numOf))
      (((cells.filterMap numOf).length : ℕ) : ℚ))
  | AggFun.sum, cells => Cell.num (qSum (cells.filterMap numOf))

/-- The group-key tuple of a row. -/
def keyOf (keys : List String) (r : Row) : List Cell := keys.map (getCell r)

/-- The rows whose group keys are all present (`groupby` drops rows
with a missing key). -/
def rowsWithKeys (keys : List String) (rows : List Row) : List Row :=
  rows.filter (fun r => keys.all (fun k => getCell r k != Cell.missing))

/-- The distinct group keys in ascending order. -/
def sortedKeys (keys : List String) (rows : List Row) : List (List Cell) :=
  List.insertionSort keyLeP ((rowsWithKeys keys rows).map (keyOf keys)).dedup

/-- `df.groupby(keys).agg(aggs).reset_index()` on a row list. -/
def groupbyAgg (rows : List Row) (keys : List String)
    (aggs : List (String × AggFun)) : List Row :=
  (sortedKeys keys rows).map (fun k =>
    keys.zip k ++ aggs.map (fun ca =>
      (ca.1, aggVals ca.2 (((rowsWithKeys keys rows).filter
        (fun r => keyOf keys r == k)).map (fun r => getCell r ca.1)))))

/-- `df.sort_values(c)` (ascending, missing keys first as `cellLe`
sorts them; modelled with a stable sort). -/
def sort_values (c : String) (rows : List Row) : List Row :=
  List.insertionSort (rowLeBy c) rows

/-- The `agg_dict` built by the income / region / education / CSP
builders: mean of the rate, mean of each confidence bound if its column
exists, sum of the weight column if it exists. -/
def boundAggs (cols : List String) : List (String × AggFun) :=
  [("txStandDir", AggFun.mean)] ++
  (if "txStandDirModBB" ∈ cols then [("txStandDirModBB", AggFun.mean)] else []) ++
  (if "txStandDirModBH" ∈ cols then [("txStandDirModBH", AggFun.mean)] else []) ++
  (if "poids1" ∈ cols then [("poids1", AggFun.sum)] else [])

/-- The `agg_dict` of the demographics and time-series builders. -/
def basicAggs (cols : List String) : List (String × AggFun) :=
  [("txStandDir", AggFun.mean)] ++
  (if "poids1" ∈ cols then [("poids1", AggFun.sum)] else [])

/-- Renaming one column key of a row (`rename(columns={old: new})`). -/
def renameKey (old new : String) (r : Row) : Row :=
  r.map (fun kv => if kv.1 = old then (new, kv.2) else kv)

/-- The row filter of `create_income_table`: income-decile grouping
variable, grouping value present and not the literal string `"nan"`. -/
def income_sel (r : Row) : Bool :=
  (getCell r "varGroupage" == Cell.str "FISC_NIVVIEM_E2015_S_moy_10") &&
  (getCell r "valGroupage" != Cell.missing) &&
  (getCell r "valGroupage" != Cell.str "nan")

/-- The analogous row filter for one grouping-variable name. -/
def groupage_sel (v : String) (r : Row) : Bool :=
  (getCell r "varGroupage" == Cell.str v) &&
  (getCell r "valGroupage" != Cell.missing) &&
  (getCell r "valGroupage" != Cell.str "nan")

/-- The row filter of `create_demographics_table`: age-class or sex
grouping variable. -/
def demo_sel (r : Row) : Bool :=
  ((getCell r "varGroupage" == Cell.str "classeAge10") ||
   (getCell r "varGroupage" == Cell.str "SEXE")) &&
  (getCell r "valGroupage" != Cell.missing) &&
  (getCell r "valGroupage" != Cell.str "nan")

/-- The decile cast of `create_income_table`:
`income_df['income_decile'] = pd.to_numeric(income_df['valGroupage'],
errors='coerce')` on one row. -/
def incomeCast (r : Row) : Row :=
  setEntry r "income_decile" (toNumericCell (getCell r "valGroupage"))

/-- The rows fed into the income groupby: selected rows, decile cast
applied, rows with a failed cast dropped. -/
def incomeRows (df : DataFrame) : List Row :=
  ((df.rows.filter income_sel).map incomeCast).filter
    (fun r => getCell r "income_decile" != Cell.missing)

/-- `utils/prep.py`, `create_income_table`: select income-decile rows,
cast the grouping value to a number (dropping failed casts), group by
(decile, disease, rate type) and sort by decile ascending. -/
def create_income_table (df : DataFrame) : DataFrame :=
  if df.rows.filter income_sel = [] then DataFrame.empty
  else
    { cols := ["income_decile", "varTauxLib", "type"] ++ (boundAggs df.cols).map Prod.fst,
      rows := sort_values "income_decile"
        (groupbyAgg (incomeRows df) ["income_decile", "varTauxLib", "type"]
          (boundAggs df.cols)) }

/-- Shared shape of `create_region_table`, `create_education_table`,
`create_csp_table`: select one grouping variable, group by
(`valGroupage`, disease, rate type), rename the key column. -/
def groupageTable (v newName : String) (df : DataFrame) : DataFrame :=
  if df.rows.filter (groupage_sel v) = [] then DataFrame.empty
  else
    { cols := [newName, "varTauxLib", "type"] ++ (boundAggs df.cols).map Prod.fst,
      rows := (groupbyAgg (df.rows.filter (groupage_sel v))
        ["valGroupage", "varTauxLib", "type"] (boundAggs df.cols)).map
        (renameKey "valGroupage" newName) }

/-- `utils/prep.py`, `create_region_table`. -/
def create_region_table (df : DataFrame) : DataFrame :=
  groupageTable "FISC_REG_S" "region_code" df

/-- `utils/prep.py`, `create_education_table`. -/
def create_education_table (df : DataFrame) : DataFrame :=
  groupageTable "EAR_DIPLR_S" "education_level" df

/-- `utils/prep.py`, `create_csp_table`. -/
def create_csp_table (df : DataFrame) : DataFrame :=
  groupageTable "EAR_GS_S" "csp_group" df

/-- `utils/prep.py`, `create_demographics_table`. -/
def create_demographics_table (df : DataFrame) : DataFrame :=
  if df.rows.filter demo_sel = [] then DataFrame.empty
  else
    { cols := ["varGroupage", "valGroupage", "varTauxLib", "type"] ++
        (basicAggs df.cols).map Prod.fst,
      rows := groupbyAgg (df.rows.filter demo_sel)
        ["varGroupage", "valGroupage", "varTauxLib", "type"] (basicAggs df.cols) }

/-- The row filter of `create_timeseries_table`. -/
def year_sel (r : Row) : Bool := getCell r "year" != Cell.missing

/-- `utils/prep.py`, `create_timeseries_table`. -/
def create_timeseries_table (df : DataFrame) : DataFrame :=
  if "year" ∉ df.cols then DataFrame.empty
  else if df.rows.filter year_sel = [] then DataFrame.empty
  else
    { cols := ["year", "varTauxLib", "type"] ++ (basicAggs df.cols).map Prod.fst,
      rows := sort_values "year" (groupbyAgg (df.rows.filter year_sel)
        ["year", "varTauxLib", "type"] (basicAggs df.cols)) }

/-- The optional sidebar filters of `make_tables` (a missing entry or a
falsy value — empty list, empty string — skips that filter, as in the
source's truthiness tests). -/
structure Filters where
  regions : Option (List String)
  disease : Option String
  type_ : Option String

/-- The filter block of `make_tables`. -/
def apply_filters (df : DataFrame) (filters : Option Filters) : DataFrame :=
  match filters with
  | none => df
  | some f =>
    let d1 := match f.regions with
      | some rs =>
        if rs ≠ [] then
          { cols := df.cols,
            rows := df.rows.filter (fun r =>
              (getCell r "varPartition" == Cell.str "FISC_REG_S") &&
              (rs.any (fun s => getCell r "valPartition" == Cell.str s))) }
        else df
      | none => df
    let d2 := match f.disease with
      | some d =>
        if d ≠ "" then
          { cols := d1.cols,
            rows := d1.rows.filter (fun r => getCell r "varTauxLib" == Cell.str d) }
        else d1
      | none => d1
    match f.type_ with
    | some t =>
      if t ≠ "" then
        { cols := d2.cols,
          rows := d2.rows.filter (fun r => getCell r "type" == Cell.str t) }
      else d2
    | none => d2

/-- The dictionary of tables `make_tables` returns. -/
structure Tables where
  by_income : DataFrame
  by_region : DataFrame
  by_education : DataFrame
  by_csp : DataFrame
  by_demographics : DataFrame
  timeseries : DataFrame

/-- `utils/prep.py`, `make_tables`. -/
def make_tables (df : DataFrame) (filters : Option Filters) : Tables :=
  let d := apply_filters df filters
  { by_income := create_income_table d
    by_region := create_region_table d
    by_education := create_education_table d
    by_csp := create_csp_table d
    by_demographics := create_demographics_table d
    timeseries := if "year" ∈ d.cols then create_timeseries_table d else DataFrame.empty }

/-- The `(disease, rate-type)` row filter of
`calculate_inequality_ratio`. -/
def diseaseTypeSel (disease type_ : String) (r : Row) : Bool :=
  (getCell r "varTauxLib" == Cell.str disease) &&
  (getCell r "type" == Cell.str type_)

/-- The `txStandDir` cells of the decile-`d` rows among the filtered
rows (`filtered[filtered['income_decile'] == d]['txStandDir'].values`). -/
def decileRates (df : DataFrame) (disease type_ : String) (d : ℚ) : List Cell :=
  ((df.rows.filter (diseaseTypeSel disease type_)).filter
    (fun r => getCell r "income_decile" == Cell.num d)).map
    (fun r => getCell r "txStandDir")

/-- `utils/prep.py`, `calculate_inequality_ratio`: decile-1 rate over
decile-10 rate, `NaN` (here `none`) when the table is empty, the
`(disease, type)` filter is empty, the decile column is absent, either
decile row is absent, the decile-10 rate is zero, or either rate is
itself missing (`NaN/x`, `x/NaN` and Python's `nan` result collapse to
`none`; a non-numeric rate cell would raise in Python and cannot occur
in an income table). -/
def calculate_inequality_ratio (df : DataFrame) (disease : String)
    (type_ : String) : Option ℚ :=
  if df.rows = [] then none
  else if (df.rows.filter (diseaseTypeSel disease type_)) = [] ∨
      "income_decile" ∉ df.cols then none
  else
    match decileRates df disease type_ 1, decileRates df disease type_ 10 with
    | a :: _, b :: _ =>
      if b ≠ Cell.num 0 then
        match a, b with
        | Cell.num x, Cell.num y => some (qDiv x y)
        | _, _ => none
      else none
    | _, _ => none

/-- Descending comparison of two grouped rows by mean rate, missing
means last (`sort_values('txStandDir', ascending=False)`, default
`na_position='last'`). -/
def optDescLe : Option ℚ → Option ℚ → Bool
  | some x, some y => decide (y ≤ x)
  | some _, none => true
  | none, none => true
  | none, some _ => false

def rateDescLeB (r1 r2 : Row) : Bool :=
  optDescLe (numOf (getCell r1 "txStandDir")) (numOf (getCell r2 "txStandDir"))

/-- `rateDescLeB` as a relation. -/
abbrev rateDescLe (r1 r2 : Row) : Prop := rateDescLeB r1 r2 = true

/-- The rate-type filter of `get_top_diseases`. -/
def typeSel (by_ : String) (r : Row) : Bool := getCell r "type" == Cell.str by_

/-- The grouped per-disease mean rates of `get_top_diseases`. -/
def disease_rates (df : DataFrame) (by_ : String) : List Row :=
  groupbyAgg (df.rows.filter (typeSel by_)) ["varTauxLib"] [("txStandDir", AggFun.mean)]

/-- The guarantee `sort_values('txStandDir', ascending=False)` gives
for its result: a permutation of its input sorted descending by rate.
The call passes no `kind=`, so the sort is the default quicksort,
which the pandas documentation lists as not stable — the order among
tied rates is not specified beyond this. -/
abbrev descSortSpec (l l' : List Row) : Prop :=
  List.Perm l l' ∧ l'.Pairwise rateDescLe

/-- One admissible sort behaviour: a stable descending sort. -/
def stableSort (l : List Row) : List Row := List.insertionSort rateDescLe l

/-- Another deterministic descending sort: on a fully tied input it
returns the reverse of the pre-sort order, as a non-stable quicksort
may. -/
def revTieSort (l : List Row) : List Row :=
  (List.insertionSort rateDescLe l).reverse

/-- `utils/prep.py`, `get_top_diseases`: filter to one rate type, group
by disease label, take the mean rate, sort descending, return the
first `n` labels.  The labels are returned as cells (they are string
cells in any cleaned table).  `sort_values` is called without `kind=`,
so its tie order is that of the default non-stable quicksort: the sort
is a parameter `sortAlg`, constrained in the theorems to the
behaviours `descSortSpec` admits. -/
def get_top_diseases (sortAlg : List Row → List Row) (df : DataFrame)
    (n : Nat) (by_ : String) : List Cell :=
  if df.rows = [] then []
  else if df.rows.filter (typeSel by_) = [] then []
  else
    ((sortAlg (disease_rates df by_)).take n).map
      (fun r => getCell r "varTauxLib")

/- ------------------------------------------------------------------
Concrete example tables.
------------------------------------------------------------------ -/

/-- The spec's end-to-end example: two raw income-decile rows for one
disease and rate type, decile 1 at rate 12.0 and decile 10 at rate 4.0
(the source's income-decile grouping variable stands for the spec's
abstract `"INCOME"`). -/
def exIncomeRaw : DataFrame :=
  { cols := ["varGroupage", "valGroupage", "varTauxLib", "type", "txStandDir"],
    rows :=
      [[("varGroupage", Cell.str "FISC_NIVVIEM_E2015_S_moy_10"),
        ("valGroupage", Cell.str "1"),
        ("varTauxLib", Cell.str "Diabetes"),
        ("type", Cell.str "prevalence"),
        ("txStandDir", Cell.num 12)],
       [("varGroupage", Cell.str "FISC_NIVVIEM_E2015_S_moy_10"),
        ("valGroupage", Cell.str "10"),
        ("varTauxLib", Cell.str "Diabetes"),
        ("type", Cell.str "prevalence"),
        ("txStandDir", Cell.num 4)]] }

/-- The same two rows in reverse order. -/
def exIncomeRawRev : DataFrame :=
  { cols := exIncomeRaw.cols, rows := exIncomeRaw.rows.reverse }

/-- A cleaned table whose grouping value `"2.5"` coerces to a number
that is not an integer between 1 and 10. -/
def exIncomeBad : DataFrame :=
  { cols := ["varGroupage", "valGroupage", "varTauxLib", "type", "txStandDir"],
    rows :=
      [[("varGroupage", Cell.str "FISC_NIVVIEM_E2015_S_moy_10"),
        ("valGroupage", Cell.str "2.5"),
        ("varTauxLib", Cell.str "Diabetes"),
        ("type", Cell.str "prevalence"),
        ("txStandDir", Cell.num 7)]] }

/-- The non-missing disease-label cells among the rows of one rate
type (their distinct count is the number of groups of
`get_top_diseases`). -/
def labelCells (df : DataFrame) (by_ : String) : List Cell :=
  ((df.rows.filter (typeSel by_)).map (fun r => getCell r "varTauxLib")).filter
    (fun c => c != Cell.missing)

/-- Two diseases with equal mean rates: every ordering of its grouped
table is descending-sorted, so the tie order is entirely up to the
sort. -/
def exTie : DataFrame :=
  ⟨["varTauxLib", "type", "txStandDir"],
   [[("varTauxLib", Cell.str "A"), ("type", Cell.str "prevalence"),
     ("txStandDir", Cell.num 5)],
    [("varTauxLib", Cell.str "B"), ("type", Cell.str "prevalence"),
     ("txStandDir", Cell.num 5)]]⟩

/- ------------------------------------------------------------------
Loader, `utils/io.py`, `load_eurostat_csv`.  `pd.read_csv(path)` is
modelled by a read map `fs : String → Option DataFrame` (`none` when
the file is absent or unparsable, the cases where `read_csv` raises).
The body of `load_eurostat_csv` has no handler, so that exception
propagates to the caller, modelled as `Except.error`.
------------------------------------------------------------------ -/

/-- `c.strip().lower().replace(" ", "_")` on one header name. -/
def pyColName (s : String) : String :=
  ⟨(trimChars s.data).map (fun c =>
    if Char.toLower c = ' ' then '_' else Char.toLower c)⟩

/-- `df.columns = [c.strip().lower().replace(" ", "_") for c in
df.columns]`: the header is renamed; the rows (assoc lists keyed by the
header) are re-keyed with it. -/
def renameCols (df : DataFrame) : DataFrame :=
  ⟨df.cols.map pyColName,
   df.rows.map (fun r => r.map (fun kv => (pyColName kv.1, kv.2)))⟩

/-- `df["unit"].str.upper() == "PC"` on one row: a non-string cell
gives `NaN` under `.str`, and `NaN == "PC"` is false. -/
def unitIsPC (r : Row) : Bool :=
  match getCell r "unit" with
  | Cell.str s => (s.data.map Char.toUpper) == "PC".data
  | _ => false

/-- `df[c] = <series>`: every row gets the cell, and the name joins the
header when new. -/
def setColumn (df : DataFrame) (c : String) (f : Row → Cell) : DataFrame :=
  ⟨if c ∈ df.cols then df.cols else df.cols ++ [c],
   df.rows.map (fun r => setEntry r c (f r))⟩

/-- `astype("Int64")` on one already-coerced cell: `NaN` becomes `NA`
(still the missing marker), an integral number stays, a fractional one
raises (`cannot safely cast`). -/
def toInt64Cell : Cell → Except String Cell
  | Cell.num q =>
    if q.den = 1 then Except.ok (Cell.num q)
    else Except.error "cannot safely cast"
  | _ => Except.ok Cell.missing

/-- One row of `df["year"] = pd.to_numeric(df["time_period"],
errors="coerce").astype("Int64")`. -/
def setYearRow (r : Row) : Except String Row :=
  match toInt64Cell (toNumericCell (getCell r "time_period")) with
  | Except.ok v => Except.ok (setEntry r "year" v)
  | Except.error e => Except.error e

/-- The `year` step of the loader, guarded by the presence of
`time_period`. -/
def addYearLoad (df : DataFrame) : Except String DataFrame :=
  if "time_period" ∈ df.cols then
    match df.rows.mapM setYearRow with
    | Except.ok rs =>
      Except.ok ⟨if "year" ∈ df.cols then df.cols else df.cols ++ ["year"], rs⟩
    | Except.error e => Except.error e
  else Except.ok df

/-- `pd.to_numeric(df.get("obs_value"), errors="coerce")` on one row:
when the column is absent, `df.get` gives `None` and the coercion a
single `NaN`. -/
def obsValueCell (df : DataFrame) (r : Row) : Cell :=
  if "obs_value" ∈ df.cols then toNumericCell (getCell r "obs_value")
  else Cell.missing

/-- `df["sex"].map(sex_map).fillna(df["sex"])` on one row. -/
def sexLabelCell (r : Row) : Cell :=
  match getCell r "sex" with
  | Cell.str "M" => Cell.str "Men"
  | Cell.str "F" => Cell.str "Women"
  | Cell.str "T" => Cell.str "Total"
  | c => c

/-- `df["age"].astype(str)` on one row. -/
def ageLabelCell (r : Row) : Cell := astypeStrCell (getCell r "age")

/-- `df["age"].astype(str).apply(_age_to_bucket_label)` on one row. -/
def ageBucketCell (r : Row) : Cell :=
  match astypeStrCell (getCell r "age") with
  | Cell.str s => Cell.str ( _age_to_bucket_label s)
  | c => c

/-- `df["incgrp"].str.upper().map(inc_map).fillna(df["incgrp"])` on one
row. -/
def incgrpLabelCell (r : Row) : Cell :=
  match getCell r "incgrp" with
  | Cell.str s =>
    if (s.data.map Char.toUpper) = "A_MD60".data then
      Cell.str "≥ 60% of median income — non-poor"
    else if (s.data.map Char.toUpper) = "B_MD60".data then
      Cell.str "< 60% of median income — at-risk-of-poverty"
    else if (s.data.map Char.toUpper) = "TOTAL".data then
      Cell.str "All the population"
    else Cell.str s
  | c => c

/-- The `iso2_to_iso3` dictionary of the loader. -/
def iso2to3 : List (String × String) :=
  [("AL", "ALB"), ("AT", "AUT"), ("BE", "BEL"), ("BG", "BGR"),
   ("CH", "CHE"), ("CY", "CYP"), ("CZ", "CZE"), ("DE", "DEU"),
   ("DK", "DNK"), ("EE", "EST"), ("EL", "GRC"), ("ES", "ESP"),
   ("FI", "FIN"), ("FR", "FRA"), ("HR", "HRV"), ("HU", "HUN"),
   ("IE", "IRL"), ("IS", "ISL"), ("IT", "ITA"), ("LI", "LIE"),
   ("LT", "LTU"), ("LU", "LUX"), ("LV", "LVA"), ("ME", "MNE"),
   ("MK", "MKD"), ("MT", "MLT"), ("NL", "NLD"), ("NO", "NOR"),
   ("PL", "POL"), ("PT", "PRT"), ("RO", "ROU"), ("RS", "SRB"),
   ("SE", "SWE"), ("SI", "SVN"), ("SK", "SVK"), ("TR", "TUR"),
   ("UK", "GBR"), ("GB", "GBR")]

/-- `df["geo"].str.upper().map(iso2_to_iso3)` on one row: no `fillna`,
an unmapped or non-string code becomes `NaN`. -/
def iso3Cell (r : Row) : Cell :=
  match getCell r "geo" with
  | Cell.str s =>
    match iso2to3.find? (fun kv => kv.1.data == s.data.map Char.toUpper) with
    | some kv => Cell.str kv.2
    | none => Cell.missing
  | _ => Cell.missing

/-- The body of `load_eurostat_csv` after a successful `read_csv`:
header normalisation, the `PC` unit filter, the `year` and `obs_value`
coercions, the label columns and the ISO-3 map, each guarded by the
presence of its source column exactly as in the source. -/
def processEurostat (raw : DataFrame) : Except String DataFrame :=
  let df0 := renameCols raw
  let df1 := if "unit" ∈ df0.cols then
      (⟨df0.cols, df0.rows.filter unitIsPC⟩ : DataFrame) else df0
  match addYearLoad df1 with
  | Except.error e => Except.error e
  | Except.ok df2 =>
    let df3 := setColumn df2 "obs_value" (obsValueCell df2)
    let df4 := if "sex" ∈ df3.cols then
        setColumn df3 "sex_label" sexLabelCell else df3
    let df5 := if "age" ∈ df4.cols then
        setColumn (setColumn df4 "age_label" ageLabelCell)
          "age_bucket_label" ageBucketCell
      else df4
    let df6 := if "incgrp" ∈ df5.cols then
        setColumn df5 "incgrp_label" incgrpLabelCell else df5
    let df7 := if "geo" ∈ df6.cols then
        setColumn df6 "iso3" iso3Cell else df6
    Except.ok df7

/-- `utils/io.py`, `load_eurostat_csv`: `pd.read_csv(path)` and the
processing above.  There is no `try`/`except` in the body, so a failed
read propagates. -/
def load_eurostat_csv (fs : String → Option DataFrame) (path : String) :
    Except String DataFrame :=
  match fs path with
  | none => Except.error "read_csv raised"
  | some raw => processEurostat raw

/-- A two-row raw Eurostat table (headers still unnormalised). -/
def exEuroRaw : DataFrame :=
  ⟨["Unit ", "time_period", "OBS_VALUE", "sex", "age", "geo"],
   [[("Unit ", Cell.str "PC"), ("time_period", Cell.str "2020"),
     ("OBS_VALUE", Cell.str "12.5"), ("sex", Cell.str "F"),
     ("age", Cell.str "Y18-24"), ("geo", Cell.str "fr")],
    [("Unit ", Cell.str "NR"), ("time_period", Cell.str "2021"),
     ("OBS_VALUE", Cell.str "3"), ("sex", Cell.str "M"),
     ("age", Cell.str "TOTAL"), ("geo", Cell.str "de")]]⟩

/- ==================================================================
THEOREMS (all definitions are above this line).
================================================================== -/

theorem bucketOfLo_mem (lo : Nat) : bucketOfLo lo ∈ nineBuckets := by
  unfold bucketOfLo
  split_ifs <;> decide

example : _age_to_bucket_label "Y_GE75" = "≥75" := by decide
example : _age_to_bucket_label "Y18-24" = "18-24" := by decide
example : _age_to_bucket_label "FOO" = "Total" := by decide
example : _age_to_bucket_label "18 TO 24" = "18-24" := by decide
example : _age_to_bucket_label "Y45-64" = "45-54" := by decide
example : _age_to_bucket_label " total " = "Total" := by decide
example : _age_to_bucket_label "Y_GE16" = "<18" := by decide
example : _age_to_bucket_label "Y75_84" = "≥75" := by decide

theorem num_eq_mul_den (a : ℚ) : (a.num : ℚ) = a * a.den := by
  have h := Rat.num_div_den a
  rwa [div_eq_iff (Nat.cast_ne_zero.mpr a.den_nz)] at h

theorem qAdd_eq (a b : ℚ) : qAdd a b = a + b := by
  have ha : ((a.den : ℚ)) ≠ 0 := Nat.cast_ne_zero.mpr a.den_nz
  have hb : ((b.den : ℚ)) ≠ 0 := Nat.cast_ne_zero.mpr b.den_nz
  rw [qAdd, Rat.mkRat_eq_div]
  push_cast
  rw [num_eq_mul_den a, num_eq_mul_den b, div_eq_iff (mul_ne_zero ha hb)]
  ring

theorem qMul_eq (a b : ℚ) : qMul a b = a * b := by
  have ha : ((a.den : ℚ)) ≠ 0 := Nat.cast_ne_zero.mpr a.den_nz
  have hb : ((b.den : ℚ)) ≠ 0 := Nat.cast_ne_zero.mpr b.den_nz
  rw [qMul, Rat.mkRat_eq_div]
  push_cast
  rw [num_eq_mul_den a, num_eq_mul_den b, div_eq_iff (mul_ne_zero ha hb)]
  ring

theorem qNeg_eq (a : ℚ) : qNeg a = -a := by
  have ha : ((a.den : ℚ)) ≠ 0 := Nat.cast_ne_zero.mpr a.den_nz
  rw [qNeg, Rat.mkRat_eq_div]
  push_cast
  rw [num_eq_mul_den a, div_eq_iff ha]
  ring

theorem qDiv_eq (a b : ℚ) : qDiv a b = a / b := by
  have ha : ((a.den : ℚ)) ≠ 0 := Nat.cast_ne_zero.mpr a.den_nz
  rcases eq_or_ne b 0 with rfl | hb0
  · simp [qDiv, Rat.divInt_eq_div]
  · have hbn : ((b.num : ℚ)) ≠ 0 := by
      exact_mod_cast Rat.num_ne_zero.mpr hb0
    rw [qDiv, Rat.divInt_eq_div]
    push_cast
    rw [div_eq_div_iff (mul_ne_zero ha hbn) hb0, num_eq_mul_den a, num_eq_mul_den b]
    ring

theorem qSum_eq (l : List ℚ) : qSum l = l.sum := by
  induction l with
  | nil => rfl
  | cons x xs ih => rw [qSum, qAdd_eq, ih, List.sum_cons]

theorem getCell_eq_missing_of_not_hasKey {r : Row} {c : String}
    (h : hasKey r c = false) : getCell r c = Cell.missing := by
  induction r with
  | nil => rfl
  | cons kv t ih =>
    rw [hasKey] at h
    rw [getCell]
    split at h
    · cases h
    · rw [if_neg (by assumption)]
      exact ih h

theorem hasKey_of_getCell_ne_missing {r : Row} {c : String}
    (h : getCell r c ≠ Cell.missing) : hasKey r c = true := by
  by_contra hk
  exact h (getCell_eq_missing_of_not_hasKey (Bool.eq_false_iff.mpr hk))

theorem getCell_mapColRow_ne {c c' : String} (f : Cell → Cell) (r : Row)
    (h : c' ≠ c) : getCell (mapColRow c f r) c' = getCell r c' := by
  induction r with
  | nil => rfl
  | cons kv t ih =>
    rw [mapColRow, List.map_cons]
    rw [mapColRow] at ih
    by_cases h1 : kv.1 = c
    · have h2 : ¬ kv.1 = c' := fun hh => h (hh ▸ h1)
      rw [if_pos h1, getCell, getCell, if_neg h2, if_neg h2]
      exact ih
    · rw [if_neg h1, getCell, getCell]
      by_cases h2 : kv.1 = c'
      · rw [if_pos h2, if_pos h2]
      · rw [if_neg h2, if_neg h2]
        exact ih

theorem hasKey_mapColRow (c c' : String) (f : Cell → Cell) (r : Row) :
    hasKey (mapColRow c f r) c' = hasKey r c' := by
  induction r with
  | nil => rfl
  | cons kv t ih =>
    rw [mapColRow, List.map_cons]
    rw [mapColRow] at ih
    by_cases h1 : kv.1 = c
    · rw [if_pos h1, hasKey, hasKey]
      by_cases h2 : kv.1 = c'
      · rw [if_pos h2, if_pos h2]
      · rw [if_neg h2, if_neg h2]
        exact ih
    · rw [if_neg h1, hasKey, hasKey]
      by_cases h2 : kv.1 = c'
      · rw [if_pos h2, if_pos h2]
      · rw [if_neg h2, if_neg h2]
        exact ih

theorem getCell_mapColRow_self (c : String) (f : Cell → Cell) (r : Row)
    (hf : f Cell.missing = Cell.missing) :
    getCell (mapColRow c f r) c = f (getCell r c) := by
  induction r with
  | nil => simpa [mapColRow, getCell] using hf.symm
  | cons kv t ih =>
    rw [mapColRow, List.map_cons]
    rw [mapColRow] at ih
    by_cases h1 : kv.1 = c
    · rw [if_pos h1, getCell, getCell, if_pos h1, if_pos h1]
    · rw [if_neg h1, getCell, getCell, if_neg h1, if_neg h1]
      exact ih

theorem list_map_self {α : Type} {l : List α} {f : α → α}
    (h : ∀ a ∈ l, f a = a) : l.map f = l := by
  conv_rhs => rw [← List.map_id l]
  exact List.map_congr_left h

theorem mapColRow_fix {c : String} {f : Cell → Cell} {r : Row}
    (h : ∀ kv ∈ r, kv.1 = c → f kv.2 = kv.2) : mapColRow c f r = r := by
  rw [mapColRow]
  refine list_map_self (fun kv hkv => ?_)
  by_cases h1 : kv.1 = c
  · rw [if_pos h1, h kv hkv h1]
  · rw [if_neg h1]

theorem mem_mapColRow {c : String} {f : Cell → Cell} {r : Row} {kv : String × Cell}
    (h : kv ∈ mapColRow c f r) :
    (kv ∈ r ∧ kv.1 ≠ c) ∨ (kv.1 = c ∧ ∃ v₀, kv.2 = f v₀) := by
  rw [mapColRow, List.mem_map] at h
  obtain ⟨kv₀, h₀, heq⟩ := h
  by_cases h1 : kv₀.1 = c
  · rw [if_pos h1] at heq
    right
    constructor
    · rw [← heq]
      simp [h1]
    · rw [← heq]
      simp
  · rw [if_neg h1] at heq
    exact Or.inl ⟨heq ▸ h₀, heq ▸ h1⟩

theorem applyCols_nil (cols : List String) (f : Cell → Cell) (r : Row) :
    applyCols cols [] f r = r := rfl

theorem applyCols_cons (cols : List String) (c : String) (cs : List String)
    (f : Cell → Cell) (r : Row) :
    applyCols cols (c :: cs) f r =
      applyCols cols cs f (if c ∈ cols then mapColRow c f r else r) := rfl

theorem getCell_applyCols_not_mem {cols cs : List String} {c' : String}
    {f : Cell → Cell} {r : Row} (h : c' ∉ cs) :
    getCell (applyCols cols cs f r) c' = getCell r c' := by
  induction cs generalizing r with
  | nil => rfl
  | cons c t ih =>
    rw [applyCols_cons]
    have hne : c' ≠ c := fun hh => h (hh ▸ List.mem_cons_self c t)
    have ht : c' ∉ t := fun hh => h (List.mem_cons_of_mem c hh)
    rw [ih ht]
    split
    · exact getCell_mapColRow_ne f r hne
    · rfl

theorem hasKey_applyCols (cols cs : List String) (c' : String)
    (f : Cell → Cell) (r : Row) :
    hasKey (applyCols cols cs f r) c' = hasKey r c' := by
  induction cs generalizing r with
  | nil => rfl
  | cons c t ih =>
    rw [applyCols_cons, ih]
    split
    · exact hasKey_mapColRow c c' f r
    · rfl

theorem getCell_applyCols_mem {cols cs : List String} {c' : String}
    {f : Cell → Cell} {r : Row} (hcs : c' ∈ cs) (hcols : c' ∈ cols)
    (hf : f Cell.missing = Cell.missing) (hidem : ∀ x, f (f x) = f x) :
    getCell (applyCols cols cs f r) c' = f (getCell r c') := by
  induction cs generalizing r with
  | nil => cases hcs
  | cons c t ih =>
    rw [applyCols_cons]
    by_cases hct : c' ∈ t
    · rw [ih hct]
      by_cases hcc : c = c'
      · rw [if_pos (hcc ▸ hcols), hcc, getCell_mapColRow_self c' f r hf, hidem]
      · split
        · rw [getCell_mapColRow_ne f r (fun hh => hcc hh.symm)]
        · rfl
    · have hcc : c' = c := by
        rcases List.mem_cons.mp hcs with h | h
        · exact h
        · exact absurd h hct
      subst hcc
      rw [getCell_applyCols_not_mem hct, if_pos hcols,
        getCell_mapColRow_self c' f r hf]

theorem applyCols_fix {cols cs : List String} {f : Cell → Cell} {r : Row}
    (h : ∀ c ∈ cs, c ∈ cols → ∀ kv ∈ r, kv.1 = c → f kv.2 = kv.2) :
    applyCols cols cs f r = r := by
  induction cs with
  | nil => rfl
  | cons c t ih =>
    rw [applyCols_cons]
    have hstep : (if c ∈ cols then mapColRow c f r else r) = r := by
      split
      · exact mapColRow_fix (fun kv hkv h1 =>
          h c (List.mem_cons_self c t) (by assumption) kv hkv h1)
      · rfl
    rw [hstep]
    exact ih (fun c' hc' hcols' => h c' (List.mem_cons_of_mem c hc') hcols')

theorem mem_applyCols {cols cs : List String} {f : Cell → Cell} {r : Row}
    {kv : String × Cell} (h : kv ∈ applyCols cols cs f r) :
    (kv ∈ r ∧ (kv.1 ∉ cs ∨ kv.1 ∉ cols)) ∨ (kv.1 ∈ cs ∧ ∃ v₀, kv.2 = f v₀) := by
  induction cs generalizing r with
  | nil => exact Or.inl ⟨h, Or.inl (List.not_mem_nil kv.1)⟩
  | cons c t ih =>
    rw [applyCols_cons] at h
    rcases ih h with ⟨hmem, hside⟩ | ⟨hmem, himg⟩
    · by_cases hcc : c ∈ cols
      · rw [if_pos hcc] at hmem
        rcases mem_mapColRow hmem with ⟨hr, hne⟩ | ⟨heq, himg⟩
        · refine Or.inl ⟨hr, ?_⟩
          rcases hside with h1 | h1
          · exact Or.inl (by simp [hne, h1])
          · exact Or.inr h1
        · exact Or.inr ⟨by simp [heq], himg⟩
      · rw [if_neg hcc] at hmem
        refine Or.inl ⟨hmem, ?_⟩
        rcases hside with h1 | h1
        · by_cases h2 : kv.1 = c
          · exact Or.inr (h2 ▸ hcc)
          · exact Or.inl (by simp [h1, h2])
        · exact Or.inr h1
    · exact Or.inr ⟨List.mem_cons_of_mem c hmem, himg⟩

theorem hasKey_of_mem {r : Row} {kv : String × Cell} {c : String}
    (h1 : kv ∈ r) (h2 : kv.1 = c) : hasKey r c = true := by
  induction r with
  | nil => cases h1
  | cons kv₀ t ih =>
    rw [hasKey]
    rcases List.mem_cons.mp h1 with h3 | h3
    · rw [if_pos (by rw [← h3]; exact h2)]
    · split
      · rfl
      · exact ih h3

theorem mem_setEntry {r : Row} {c : String} {v : Cell} {kv : String × Cell}
    (h : kv ∈ setEntry r c v) : kv = (c, v) ∨ (kv ∈ r ∧ kv.1 ≠ c) := by
  rw [setEntry] at h
  split at h
  · rw [List.mem_map] at h
    obtain ⟨kv₀, h₀, heq⟩ := h
    by_cases h1 : kv₀.1 = c
    · rw [if_pos h1] at heq
      exact Or.inl (by rw [← heq, h1])
    · rw [if_neg h1] at heq
      exact Or.inr ⟨heq ▸ h₀, heq ▸ h1⟩
  · rcases List.mem_append.mp h with h1 | h1
    · by_cases h2 : kv.1 = c
      · rename_i hk
        exact absurd (hasKey_of_mem h1 h2) hk
      · exact Or.inr ⟨h1, h2⟩
    · exact Or.inl (by simpa using h1)

theorem getCell_append_ne {t : Row} {c c' : String} {v : Cell}
    (h : c' ≠ c) : getCell (t ++ [(c, v)]) c' = getCell t c' := by
  induction t with
  | nil =>
    have h2 : ¬ (((c, v) : String × Cell).1 = c') := fun hh => h hh.symm
    show getCell [(c, v)] c' = Cell.missing
    rw [getCell, if_neg h2]
    rfl
  | cons kv t ih =>
    rw [List.cons_append, getCell, getCell]
    by_cases h2 : kv.1 = c'
    · rw [if_pos h2, if_pos h2]
    · rw [if_neg h2, if_neg h2]
      exact ih

theorem getCell_setEntry_ne {r : Row} {c c' : String} {v : Cell}
    (h : c' ≠ c) : getCell (setEntry r c v) c' = getCell r c' := by
  rw [setEntry]
  split
  · exact getCell_mapColRow_ne (fun _ => v) r h
  · exact getCell_append_ne h

theorem hasKey_append_self (r : Row) (c : String) (v : Cell) :
    hasKey (r ++ [(c, v)]) c = true := by
  induction r with
  | nil => simp [hasKey]
  | cons kv t ih =>
    rw [List.cons_append, hasKey]
    split
    · rfl
    · exact ih

theorem hasKey_setEntry_self (r : Row) (c : String) (v : Cell) :
    hasKey (setEntry r c v) c = true := by
  rw [setEntry]
  split
  · rename_i hk
    show hasKey (mapColRow c (fun _ => v) r) c = true
    rw [hasKey_mapColRow]
    exact hk
  · exact hasKey_append_self r c v


theorem setEntry_fix {r : Row} {c : String} {v : Cell}
    (hk : hasKey r c = true) (hv : ∀ kv ∈ r, kv.1 = c → kv.2 = v) :
    setEntry r c v = r := by
  rw [setEntry, if_pos hk]
  refine list_map_self (fun kv hkv => ?_)
  by_cases h1 : kv.1 = c
  · rw [if_pos h1, ← hv kv hkv h1]
  · rw [if_neg h1]

theorem getCell_cons_self (kv : String × Cell) (t : Row) :
    getCell (kv :: t) kv.1 = kv.2 := by
  rw [getCell, if_pos rfl]

theorem getCell_setEntry_self (r : Row) (c : String) (v : Cell) :
    getCell (setEntry r c v) c = v := by
  rw [setEntry]
  split
  · rename_i hk
    induction r with
    | nil => cases hk
    | cons kv t ih =>
      rw [List.map_cons, getCell]
      by_cases h1 : kv.1 = c
      · rw [if_pos h1, if_pos (show ((kv.1, v) : String × Cell).1 = c from h1)]
      · rw [if_neg h1, if_neg h1]
        rw [hasKey, if_neg h1] at hk
        exact ih hk
  · induction r with
    | nil =>
      show getCell [(c, v)] c = v
      rw [getCell, if_pos rfl]
    | cons kv t ih =>
      rename_i hk
      rw [hasKey] at hk
      rw [List.cons_append, getCell]
      split at hk
      · cases hk rfl
      · rw [if_neg (by assumption)]
        exact ih hk

example : parseNum "12.0" = some 12 := by decide
example : parseNum " -3.50 " = some (mkRat (-7) 2) := by decide
example : parseNum "1e2" = some 100 := by decide
example : parseNum "2E-2" = some (mkRat 1 50) := by decide
example : parseNum ".5" = some (mkRat 1 2) := by decide
example : parseNum "7." = some 7 := by decide
example : parseNum "abc" = none := by decide
example : parseNum "nan" = none := by decide
example : parseNum "" = none := by decide
example : parseNum "12abc" = none := by decide

/-- C2: `_age_to_bucket_label` is total and deterministic (it is a
function, and every string maps into the nine canonical buckets tried
in the source's rule order: exact tokens, range lower bound, threshold,
first embedded number, default `"Total"`); in particular `"Y_GE75"`
maps to `"≥75"`, `"Y18-24"` to `"18-24"`, `"FOO"` to `"Total"`. -/
theorem age_to_bucket_label_total_and_examples :
    (∀ s : String, _age_to_bucket_label s ∈ nineBuckets) ∧
    _age_to_bucket_label "Y_GE75" = "≥75" ∧
    _age_to_bucket_label "Y18-24" = "18-24" ∧
    _age_to_bucket_label "FOO" = "Total" := by
  refine ⟨fun s => ?_, by decide, by decide, by decide⟩
  unfold _age_to_bucket_label ageBucketCore
  repeat' split
  all_goals first
    | decide
    | exact bucketOfLo_mem _

/- Cell-level idempotence and basic facts used by the cleaning proofs. -/

theorem toNumericCell_missing : toNumericCell Cell.missing = Cell.missing := rfl

theorem toNumericCell_idem (x : Cell) :
    toNumericCell (toNumericCell x) = toNumericCell x := by
  cases x with
  | str s =>
    rw [toNumericCell]
    rcases parseNum s with _ | q <;> rfl
  | num q => rfl
  | missing => rfl

theorem astypeStrCell_idem (x : Cell) :
    astypeStrCell (astypeStrCell x) = astypeStrCell x := by
  cases x <;> rfl

theorem astypeStrCell_ne_missing (x : Cell) : astypeStrCell x ≠ Cell.missing := by
  cases x <;> simp [astypeStrCell]

theorem getCell_mapColRow_self_hasKey (c : String) (f : Cell → Cell) (r : Row)
    (hk : hasKey r c = true) :
    getCell (mapColRow c f r) c = f (getCell r c) := by
  induction r with
  | nil => cases hk
  | cons kv t ih =>
    rw [mapColRow, List.map_cons]
    rw [mapColRow] at ih
    by_cases h1 : kv.1 = c
    · rw [if_pos h1, getCell, getCell, if_pos h1, if_pos h1]
    · rw [hasKey, if_neg h1] at hk
      rw [if_neg h1, getCell, getCell, if_neg h1, if_neg h1]
      exact ih hk

theorem getCell_applyCols_hasKey {cols cs : List String} {c' : String}
    {f : Cell → Cell} {r : Row} (hcs : c' ∈ cs) (hcols : c' ∈ cols)
    (hidem : ∀ x, f (f x) = f x) (hk : hasKey r c' = true) :
    getCell (applyCols cols cs f r) c' = f (getCell r c') := by
  induction cs generalizing r with
  | nil => cases hcs
  | cons c t ih =>
    rw [applyCols_cons]
    by_cases hct : c' ∈ t
    · by_cases hcc : c = c'
      · rw [if_pos (hcc ▸ hcols), hcc]
        rw [ih hct (by rw [hasKey_mapColRow]; exact hk),
          getCell_mapColRow_self_hasKey c' f r hk, hidem]
      · split
        · rw [ih hct (by rw [hasKey_mapColRow]; exact hk),
            getCell_mapColRow_ne f r (fun hh => hcc hh.symm)]
        · rw [ih hct hk]
    · have hcc : c' = c := by
        rcases List.mem_cons.mp hcs with h | h
        · exact h
        · exact absurd h hct
      subst hcc
      rw [getCell_applyCols_not_mem hct, if_pos hcols,
        getCell_mapColRow_self_hasKey c' f r hk]

/- `dropnaSubset` structure lemmas. -/

theorem dropnaSubset_cons (d : DataFrame) (c : String) (t : List String) :
    dropnaSubset d (c :: t) =
      dropnaSubset
        (if c ∈ d.cols then
          { cols := d.cols, rows := d.rows.filter (fun r => getCell r c != Cell.missing) }
        else d) t := rfl

theorem dropnaSubset_cols (d : DataFrame) (cs : List String) :
    (dropnaSubset d cs).cols = d.cols := by
  induction cs generalizing d with
  | nil => rfl
  | cons c t ih =>
    rw [dropnaSubset_cons, ih]
    split <;> rfl

theorem mem_dropnaSubset {d : DataFrame} {cs : List String} {r : Row}
    (h : r ∈ (dropnaSubset d cs).rows) : r ∈ d.rows := by
  induction cs generalizing d with
  | nil => exact h
  | cons c t ih =>
    rw [dropnaSubset_cons] at h
    have h2 := ih h
    split at h2
    · exact List.mem_of_mem_filter h2
    · exact h2

theorem dropnaSubset_pred {d : DataFrame} {cs : List String} {r : Row}
    (h : r ∈ (dropnaSubset d cs).rows) :
    ∀ c ∈ cs, c ∈ d.cols → getCell r c ≠ Cell.missing := by
  induction cs generalizing d with
  | nil => intro c hc; cases hc
  | cons c t ih =>
    intro c' hc' hcols
    rw [dropnaSubset_cons] at h
    rcases List.mem_cons.mp hc' with rfl | hct
    · have h2 : r ∈ (if c' ∈ d.cols then
          ({ cols := d.cols, rows := d.rows.filter (fun r => getCell r c' != Cell.missing) } : DataFrame)
        else d).rows := mem_dropnaSubset h
      rw [if_pos hcols] at h2
      have := List.of_mem_filter h2
      simpa using this
    · refine ih h c' hct ?_
      split <;> simpa using hcols

/- `addYear` structure lemmas. -/

theorem addYear_rows_pos {d : DataFrame} (h : "annee" ∈ d.cols) :
    (addYear d).rows =
      d.rows.map (fun r => setEntry r "year" (toNumericCell (getCell r "annee"))) := by
  rw [addYear, if_pos h]

theorem addYear_eq_neg {d : DataFrame} (h : "annee" ∉ d.cols) : addYear d = d := by
  rw [addYear, if_neg h]

theorem addYear_cols_mono {d : DataFrame} {c : String} (h : c ∈ d.cols) :
    c ∈ (addYear d).cols := by
  rw [addYear]
  split
  · split
    · exact h
    · exact List.mem_append_left _ h
  · exact h

theorem mem_of_addYear_cols {d : DataFrame} {c : String}
    (h : c ∈ (addYear d).cols) : c ∈ d.cols ∨ c = "year" := by
  rw [addYear] at h
  split at h
  · split at h
    · exact Or.inl h
    · rcases List.mem_append.mp h with h1 | h1
      · exact Or.inl h1
      · exact Or.inr (by simpa using h1)
  · exact Or.inl h

theorem cols_disjoint_string_numeric : ∀ x ∈ string_cols, x ∉ numeric_cols := by decide

/-- The central invariant of `clean_data`: in each output row, numeric
cells are numeric-coercion fixpoints, string cells are string-coercion
fixpoints, critical identifying fields are not missing, and the derived
`year` entry is the numeric coercion of `annee`. -/
theorem clean_data_rows_spec (df : DataFrame) {r : Row}
    (hr : r ∈ (clean_data df).rows) :
    (∀ kv ∈ r, kv.1 ∈ numeric_cols → kv.1 ∈ df.cols → toNumericCell kv.2 = kv.2) ∧
    (∀ kv ∈ r, kv.1 ∈ string_cols → kv.1 ∈ df.cols → astypeStrCell kv.2 = kv.2) ∧
    (∀ c ∈ critical_cols, c ∈ df.cols → getCell r c ≠ Cell.missing) ∧
    ("annee" ∈ df.cols → hasKey r "year" = true ∧
      ∀ kv ∈ r, kv.1 = "year" → kv.2 = toNumericCell (getCell r "annee")) := by
  have hBcols : (dropnaSubset (DataFrame.mapCols df numeric_cols toNumericCell)
      critical_cols).cols = df.cols := dropnaSubset_cols _ _
  obtain ⟨r₃, hr₃, rfl⟩ := List.mem_map.mp hr
  -- facts about `r₃`, a row of `addYear (dropnaSubset (mapCols ...) ...)`
  have hC1 : ∀ kv ∈ r₃, kv.1 ∈ numeric_cols → kv.1 ∈ df.cols →
      toNumericCell kv.2 = kv.2 := by
    intro kv hkv hn hcols
    have hB : ∀ r₂ ∈ (dropnaSubset (DataFrame.mapCols df numeric_cols toNumericCell)
        critical_cols).rows, kv ∈ r₂ → toNumericCell kv.2 = kv.2 := by
      intro r₂ hr₂ hkv₂
      have hr₁ := mem_dropnaSubset hr₂
      obtain ⟨r₀, _, rfl⟩ := List.mem_map.mp hr₁
      rcases mem_applyCols hkv₂ with ⟨_, hside⟩ | ⟨_, v₀, himg⟩
      · rcases hside with h1 | h1
        · exact absurd hn h1
        · exact absurd hcols h1
      · rw [himg, toNumericCell_idem]
    by_cases hA : "annee" ∈ df.cols
    · rw [addYear_rows_pos (hBcols ▸ hA)] at hr₃
      obtain ⟨r₂, hr₂, rfl⟩ := List.mem_map.mp hr₃
      rcases mem_setEntry hkv with rfl | ⟨hkv₂, _⟩
      · exact absurd hn (show ("year" : String) ∉ numeric_cols by decide)
      · exact hB r₂ hr₂ hkv₂
    · rw [addYear_eq_neg (fun hh => hA (hBcols ▸ hh))] at hr₃
      exact hB r₃ hr₃ hkv
  have hC2 : ∀ c ∈ critical_cols, c ∈ df.cols → getCell r₃ c ≠ Cell.missing := by
    intro c hc hcols
    have hcy : c ≠ "year" := by
      rcases show c = "varTauxLib" ∨ c = "type" by simpa [critical_cols] using hc with
        rfl | rfl <;> decide
    by_cases hA : "annee" ∈ df.cols
    · rw [addYear_rows_pos (hBcols ▸ hA)] at hr₃
      obtain ⟨r₂, hr₂, rfl⟩ := List.mem_map.mp hr₃
      rw [getCell_setEntry_ne hcy]
      exact dropnaSubset_pred hr₂ c hc hcols
    · rw [addYear_eq_neg (fun hh => hA (hBcols ▸ hh))] at hr₃
      exact dropnaSubset_pred hr₃ c hc hcols
  have hC4 : "annee" ∈ df.cols → hasKey r₃ "year" = true ∧
      ∀ kv ∈ r₃, kv.1 = "year" → kv.2 = toNumericCell (getCell r₃ "annee") := by
    intro hA
    rw [addYear_rows_pos (hBcols ▸ hA)] at hr₃
    obtain ⟨r₂, hr₂, rfl⟩ := List.mem_map.mp hr₃
    refine ⟨hasKey_setEntry_self _ _ _, fun kv hkv hy => ?_⟩
    rcases mem_setEntry hkv with rfl | ⟨_, hne⟩
    · rw [getCell_setEntry_ne (show ("annee" : String) ≠ "year" by decide)]
    · exact absurd hy hne
  -- transport through the string phase
  refine ⟨?_, ?_, ?_, ?_⟩
  · intro kv hkv hn hcols
    rcases mem_applyCols hkv with ⟨hmem, _⟩ | ⟨hstr, v₀, himg⟩
    · exact hC1 kv hmem hn hcols
    · exact absurd hn (cols_disjoint_string_numeric kv.1 hstr)
  · intro kv hkv hstr hcols
    rcases mem_applyCols hkv with ⟨_, hside⟩ | ⟨_, v₀, himg⟩
    · rcases hside with h1 | h1
      · exact absurd hstr h1
      · exact absurd (addYear_cols_mono (hBcols ▸ hcols)) h1
    · rw [himg, astypeStrCell_idem]
  · intro c hc hcols
    have hcs : c ∈ string_cols := by
      rcases show c = "varTauxLib" ∨ c = "type" by simpa [critical_cols] using hc with
        rfl | rfl <;> decide
    rw [getCell_applyCols_hasKey hcs (addYear_cols_mono (hBcols ▸ hcols))
      astypeStrCell_idem (hasKey_of_getCell_ne_missing (hC2 c hc hcols))]
    exact astypeStrCell_ne_missing _
  · intro hA
    refine ⟨by rw [hasKey_applyCols]; exact (hC4 hA).1, fun kv hkv hy => ?_⟩
    rcases mem_applyCols hkv with ⟨hmem, _⟩ | ⟨hstr, _, _⟩
    · rw [getCell_applyCols_not_mem (show ("annee" : String) ∉ string_cols by decide)]
      exact (hC4 hA).2 kv hmem hy
    · rw [hy] at hstr
      exact absurd hstr (by decide)

theorem DataFrame.ext' {d1 d2 : DataFrame} (h1 : d1.cols = d2.cols)
    (h2 : d1.rows = d2.rows) : d1 = d2 := by
  cases d1
  cases d2
  cases h1
  cases h2
  rfl

theorem numeric_cols_ne_year : ∀ c ∈ numeric_cols, c ≠ "year" := by decide

theorem string_cols_ne_year : ∀ c ∈ string_cols, c ≠ "year" := by decide

theorem critical_cols_ne_year : ∀ c ∈ critical_cols, c ≠ "year" := by decide

theorem clean_data_cols_eq (df : DataFrame) :
    (clean_data df).cols =
      (addYear (dropnaSubset (DataFrame.mapCols df numeric_cols toNumericCell)
        critical_cols)).cols := rfl

theorem mem_clean_data_cols {df : DataFrame} {c : String}
    (h : c ∈ (clean_data df).cols) (hy : c ≠ "year") : c ∈ df.cols := by
  rw [clean_data_cols_eq] at h
  rcases mem_of_addYear_cols h with h1 | h1
  · rwa [dropnaSubset_cols] at h1
  · exact absurd h1 hy

theorem year_mem_addYear_cols {d : DataFrame} (h : "annee" ∈ d.cols) :
    "year" ∈ (addYear d).cols := by
  rw [addYear, if_pos h]
  by_cases hy : "year" ∈ d.cols
  · rw [if_pos hy]; exact hy
  · rw [if_neg hy]; exact List.mem_append_right _ (by decide)

theorem dropnaSubset_eq_self {d : DataFrame} {cs : List String}
    (h : ∀ c ∈ cs, c ∈ d.cols → ∀ r ∈ d.rows, getCell r c ≠ Cell.missing) :
    dropnaSubset d cs = d := by
  induction cs generalizing d with
  | nil => rfl
  | cons c t ih =>
    rw [dropnaSubset_cons]
    have hstep : (if c ∈ d.cols then
        ({ cols := d.cols, rows := d.rows.filter (fun r => getCell r c != Cell.missing) }
          : DataFrame)
      else d) = d := by
      split
      · refine DataFrame.ext' rfl ?_
        refine List.filter_eq_self.mpr (fun r hr => ?_)
        simpa using h c (List.mem_cons_self c t) (by assumption) r hr
      · rfl
    rw [hstep]
    exact ih (fun c' hc' => h c' (List.mem_cons_of_mem c hc'))

/-- C5: cleaning is idempotent — applying `clean_data` to an already
cleaned table returns the identical table (same columns, same rows,
cell for cell); in particular the numeric coercion of every declared
numeric column is unchanged by a second pass. -/
theorem clean_data_idempotent (df : DataFrame) :
    clean_data (clean_data df) = clean_data df := by
  have hspec := fun {r} (hr : r ∈ (clean_data df).rows) => clean_data_rows_spec df hr
  -- pass 2, phase 1: numeric coercion is the identity
  have h1 : DataFrame.mapCols (clean_data df) numeric_cols toNumericCell =
      clean_data df := by
    refine DataFrame.ext' rfl ?_
    refine list_map_self (fun r hr => ?_)
    refine applyCols_fix (fun c hc hcols kv hkv hk => ?_)
    refine (hspec hr).1 kv hkv (hk ▸ hc) ?_
    rw [hk]
    exact mem_clean_data_cols hcols (numeric_cols_ne_year c hc)
  -- pass 2, phase 2: no row has a missing critical field, nothing drops
  have h2 : dropnaSubset (clean_data df) critical_cols = clean_data df := by
    refine dropnaSubset_eq_self (fun c hc hcols r hr => ?_)
    exact (hspec hr).2.2.1 c hc (mem_clean_data_cols hcols (critical_cols_ne_year c hc))
  -- pass 2, phase 3: the year column is recomputed to its own value
  have h3 : addYear (clean_data df) = clean_data df := by
    by_cases hA : "annee" ∈ (clean_data df).cols
    · have hAdf : "annee" ∈ df.cols := mem_clean_data_cols hA (by decide)
      have hy : "year" ∈ (clean_data df).cols := by
        rw [clean_data_cols_eq]
        exact year_mem_addYear_cols (by rwa [dropnaSubset_cols])
      rw [addYear, if_pos hA]
      refine DataFrame.ext' ?_ ?_
      · show (if "year" ∈ (clean_data df).cols then (clean_data df).cols
          else (clean_data df).cols ++ ["year"]) = (clean_data df).cols
        rw [if_pos hy]
      · show (clean_data df).rows.map
          (fun r => setEntry r "year" (toNumericCell (getCell r "annee"))) =
          (clean_data df).rows
        refine list_map_self (fun r hr => ?_)
        exact setEntry_fix ((hspec hr).2.2.2 hAdf).1
          (fun kv hkv hk => ((hspec hr).2.2.2 hAdf).2 kv hkv hk)
    · exact addYear_eq_neg hA
  -- pass 2, phase 4: string coercion is the identity
  show DataFrame.mapCols
    (addYear (dropnaSubset (DataFrame.mapCols (clean_data df) numeric_cols toNumericCell)
      critical_cols)) string_cols astypeStrCell = clean_data df
  rw [h1, h2, h3]
  refine DataFrame.ext' rfl ?_
  refine list_map_self (fun r hr => ?_)
  refine applyCols_fix (fun c hc hcols kv hkv hk => ?_)
  refine (hspec hr).2.1 kv hkv (hk ▸ hc) ?_
  rw [hk]
  exact mem_clean_data_cols hcols (string_cols_ne_year c hc)

theorem filter_filter_and (l : List Row) (p q : Row → Bool) :
    (l.filter p).filter q = l.filter (fun r => p r && q r) := by
  induction l with
  | nil => rfl
  | cons x t ih =>
    by_cases hp : p x
    · by_cases hq : q x <;> simp [List.filter_cons, hp, hq, ih]
    · simp [List.filter_cons, hp, ih]

theorem dropnaSubset_nil (d : DataFrame) : dropnaSubset d [] = d := rfl

theorem dropnaSubset_two (d : DataFrame) (c1 c2 : String)
    (h1 : c1 ∈ d.cols) (h2 : c2 ∈ d.cols) :
    dropnaSubset d [c1, c2] =
      ⟨d.cols, d.rows.filter
        (fun r => (getCell r c1 != Cell.missing) && (getCell r c2 != Cell.missing))⟩ := by
  rw [dropnaSubset_cons, if_pos h1]
  rw [dropnaSubset_cons]
  dsimp only
  rw [if_pos h2, dropnaSubset_nil]
  refine DataFrame.ext' rfl ?_
  exact filter_filter_and _ _ _

theorem cols_disjoint_numeric_string : ∀ x ∈ numeric_cols, x ∉ string_cols := by decide

theorem filter_map_comm {α β : Type} (l : List α) (f : α → β) (p : β → Bool) :
    (l.map f).filter p = (l.filter (fun r => p (f r))).map f := by
  induction l with
  | nil => rfl
  | cons x t ih => by_cases h : p (f x) <;> simp [List.filter_cons, h, ih]

theorem keepRow_applyCols (cols : List String) (r : Row) :
    keepRow (applyCols cols numeric_cols toNumericCell r) = keepRow r := by
  rw [keepRow, keepRow,
    getCell_applyCols_not_mem (show ("varTauxLib" : String) ∉ numeric_cols by decide),
    getCell_applyCols_not_mem (show ("type" : String) ∉ numeric_cols by decide)]

/-- C4: `clean_data` coerces each declared numeric column cell-wise
(failures become the missing marker — such rows are kept, and no value
is zero-filled), and the only rows it removes are exactly those whose
critical identifying fields (`varTauxLib` or `type`) are missing; every
retained row has both identifying fields present. -/
theorem clean_data_spec (df : DataFrame)
    (hv : "varTauxLib" ∈ df.cols) (ht : "type" ∈ df.cols) :
    (clean_data df).rows.length = (df.rows.filter keepRow).length ∧
    (∀ r ∈ (clean_data df).rows,
       getCell r "varTauxLib" ≠ Cell.missing ∧ getCell r "type" ≠ Cell.missing) ∧
    (∀ c ∈ numeric_cols, c ∈ df.cols →
       (clean_data df).rows.map (fun r => getCell r c) =
       (df.rows.filter keepRow).map (fun r => toNumericCell (getCell r c))) := by
  have hB : dropnaSubset (DataFrame.mapCols df numeric_cols toNumericCell) critical_cols =
      ⟨df.cols, (df.rows.map (applyCols df.cols numeric_cols toNumericCell)).filter keepRow⟩ :=
    dropnaSubset_two (DataFrame.mapCols df numeric_cols toNumericCell) "varTauxLib" "type" hv ht
  have hfilter : (df.rows.map (applyCols df.cols numeric_cols toNumericCell)).filter keepRow =
      (df.rows.filter keepRow).map (applyCols df.cols numeric_cols toNumericCell) := by
    rw [filter_map_comm]
    congr 1
    exact List.filter_congr (fun r _ => keepRow_applyCols df.cols r)
  refine ⟨?_, ?_, ?_⟩
  · show ((addYear (dropnaSubset (DataFrame.mapCols df numeric_cols toNumericCell)
      critical_cols)).rows.map _).length = _
    rw [List.length_map, hB]
    by_cases hA : "annee" ∈ (⟨df.cols, (df.rows.map
        (applyCols df.cols numeric_cols toNumericCell)).filter keepRow⟩ : DataFrame).cols
    · rw [addYear_rows_pos hA, List.length_map]
      dsimp only
      rw [hfilter, List.length_map]
    · rw [addYear_eq_neg hA]
      dsimp only
      rw [hfilter, List.length_map]
  · intro r hr
    exact ⟨(clean_data_rows_spec df hr).2.2.1 "varTauxLib" (by decide) hv,
      (clean_data_rows_spec df hr).2.2.1 "type" (by decide) ht⟩
  · intro c hc hcols
    have hcy : c ≠ "year" := numeric_cols_ne_year c hc
    have hcs : c ∉ string_cols := cols_disjoint_numeric_string c hc
    show ((addYear (dropnaSubset (DataFrame.mapCols df numeric_cols toNumericCell)
        critical_cols)).rows.map _).map _ = _
    rw [List.map_map]
    have e1 : ∀ r₃ : Row, getCell (applyCols
        (addYear (dropnaSubset (DataFrame.mapCols df numeric_cols toNumericCell)
          critical_cols)).cols string_cols astypeStrCell r₃) c = getCell r₃ c :=
      fun r₃ => getCell_applyCols_not_mem hcs
    refine Eq.trans (List.map_congr_left (fun r₃ _ => e1 r₃)) ?_
    rw [hB]
    by_cases hA : "annee" ∈ (⟨df.cols, (df.rows.map
        (applyCols df.cols numeric_cols toNumericCell)).filter keepRow⟩ : DataFrame).cols
    · rw [addYear_rows_pos hA]
      dsimp only
      rw [List.map_map]
      refine Eq.trans (List.map_congr_left (fun r₂ _ =>
        show getCell (setEntry r₂ "year" _) c = getCell r₂ c from
          getCell_setEntry_ne hcy)) ?_
      rw [hfilter, List.map_map]
      refine List.map_congr_left (fun r₀ _ => ?_)
      exact getCell_applyCols_mem hc hcols toNumericCell_missing toNumericCell_idem
    · rw [addYear_eq_neg hA]
      dsimp only
      rw [hfilter, List.map_map]
      refine List.map_congr_left (fun r₀ _ => ?_)
      exact getCell_applyCols_mem hc hcols toNumericCell_missing toNumericCell_idem

example : create_income_table (clean_data exIncomeRaw) =
    { cols := ["income_decile", "varTauxLib", "type", "txStandDir"],
      rows :=
        [[("income_decile", Cell.num 1),
          ("varTauxLib", Cell.str "Diabetes"),
          ("type", Cell.str "prevalence"),
          ("txStandDir", Cell.num 12)],
         [("income_decile", Cell.num 10),
          ("varTauxLib", Cell.str "Diabetes"),
          ("type", Cell.str "prevalence"),
          ("txStandDir", Cell.num 4)]] } := by decide

example : calculate_inequality_ratio (create_income_table (clean_data exIncomeRaw))
    "Diabetes" "prevalence" = some 3 := by decide

example : (create_income_table exIncomeBad).rows.map
    (fun r => getCell r "income_decile") = [Cell.num (mkRat 5 2)] := by decide

example : get_top_diseases stableSort (clean_data exIncomeRaw) 10 "prevalence" =
    [Cell.str "Diabetes"] := by decide

/- Order properties of the sorting relations. -/

theorem chListLe_total (a b : List Char) : chListLe a b = true ∨ chListLe b a = true := by
  induction a generalizing b with
  | nil => exact Or.inl rfl
  | cons x xs ih =>
    cases b with
    | nil => exact Or.inr rfl
    | cons y ys =>
      by_cases h : x = y
      · rw [chListLe, if_pos h, chListLe, if_pos h.symm]
        exact ih ys
      · rw [chListLe, if_neg h, chListLe, if_neg (fun hh => h hh.symm)]
        rcases lt_or_gt_of_ne h with hlt | hgt
        · exact Or.inl (decide_eq_true hlt)
        · exact Or.inr (decide_eq_true hgt)

theorem chListLe_antisymm : ∀ {a b : List Char},
    chListLe a b = true → chListLe b a = true → a = b
  | [], [], _, _ => rfl
  | [], _ :: _, _, h2 => by cases h2
  | _ :: _, [], h1, _ => by cases h1
  | x :: xs, y :: ys, h1, h2 => by
    by_cases h : x = y
    · rw [chListLe, if_pos h] at h1
      rw [chListLe, if_pos h.symm] at h2
      rw [h, chListLe_antisymm h1 h2]
    · rw [chListLe, if_neg h] at h1
      rw [chListLe, if_neg (fun hh => h hh.symm)] at h2
      exact absurd (of_decide_eq_true h2) (lt_asymm (of_decide_eq_true h1))

theorem chListLe_trans : ∀ {a b c : List Char},
    chListLe a b = true → chListLe b c = true → chListLe a c = true
  | [], _, _, _, _ => rfl
  | _ :: _, [], _, h1, _ => by cases h1
  | _ :: _, _ :: _, [], _, h2 => by cases h2
  | x :: xs, y :: ys, z :: zs, h1, h2 => by
    by_cases hxy : x = y
    · subst hxy
      rw [chListLe, if_pos rfl] at h1
      by_cases hyz : x = z
      · rw [chListLe, if_pos hyz] at h2 ⊢
        exact chListLe_trans h1 h2
      · rw [chListLe, if_neg hyz] at h2 ⊢
        exact h2
    · rw [chListLe, if_neg hxy] at h1
      by_cases hyz : y = z
      · subst hyz
        rw [chListLe, if_neg hxy]
        exact h1
      · rw [chListLe, if_neg hyz] at h2
        have hxz : x < z := lt_trans (of_decide_eq_true h1) (of_decide_eq_true h2)
        rw [chListLe, if_neg (ne_of_lt hxz)]
        exact decide_eq_true hxz

theorem string_data_inj {s t : String} (h : s.data = t.data) : s = t := by
  cases s
  cases t
  cases h
  rfl

theorem cellLe_total : ∀ (a b : Cell), cellLe a b = true ∨ cellLe b a = true
  | Cell.missing, b => Or.inl (by cases b <;> rfl)
  | Cell.num _, Cell.missing => Or.inr rfl
  | Cell.str _, Cell.missing => Or.inr rfl
  | Cell.num p, Cell.num q => by
    rcases le_total p q with h | h
    · exact Or.inl (decide_eq_true h)
    · exact Or.inr (decide_eq_true h)
  | Cell.num _, Cell.str _ => Or.inl rfl
  | Cell.str _, Cell.num _ => Or.inr rfl
  | Cell.str s, Cell.str t => chListLe_total s.data t.data

theorem cellLe_antisymm : ∀ {a b : Cell},
    cellLe a b = true → cellLe b a = true → a = b
  | Cell.missing, Cell.missing, _, _ => rfl
  | Cell.missing, Cell.num _, _, h2 => by cases h2
  | Cell.missing, Cell.str _, _, h2 => by cases h2
  | Cell.num _, Cell.missing, h1, _ => by cases h1
  | Cell.str _, Cell.missing, h1, _ => by cases h1
  | Cell.num p, Cell.num q, h1, h2 =>
    congrArg Cell.num (le_antisymm (of_decide_eq_true h1) (of_decide_eq_true h2))
  | Cell.num _, Cell.str _, _, h2 => by cases h2
  | Cell.str _, Cell.num _, h1, _ => by cases h1
  | Cell.str s, Cell.str t, h1, h2 =>
    congrArg Cell.str (string_data_inj (chListLe_antisymm h1 h2))

theorem cellLe_trans : ∀ {a b c : Cell},
    cellLe a b = true → cellLe b c = true → cellLe a c = true
  | Cell.missing, _, c, _, _ => by cases c <;> rfl
  | Cell.num _, Cell.missing, _, h1, _ => by cases h1
  | Cell.str _, Cell.missing, _, h1, _ => by cases h1
  | Cell.str _, Cell.num _, _, h1, _ => by cases h1
  | Cell.num _, Cell.num _, Cell.missing, _, h2 => by cases h2
  | Cell.num _, Cell.str _, Cell.missing, _, h2 => by cases h2
  | Cell.str _, Cell.str _, Cell.missing, _, h2 => by cases h2
  | Cell.num p, Cell.num q, Cell.num rq, h1, h2 =>
    decide_eq_true (le_trans (of_decide_eq_true h1) (of_decide_eq_true h2))
  | Cell.num _, Cell.num _, Cell.str _, _, _ => rfl
  | Cell.num _, Cell.str _, Cell.num _, _, h2 => by cases h2
  | Cell.num _, Cell.str _, Cell.str _, _, _ => rfl
  | Cell.str _, Cell.str _, Cell.num _, _, h2 => by cases h2
  | Cell.str s, Cell.str t, Cell.str u, h1, h2 => chListLe_trans h1 h2

theorem keyLe_total (a b : List Cell) : keyLe a b = true ∨ keyLe b a = true := by
  induction a generalizing b with
  | nil => exact Or.inl rfl
  | cons x xs ih =>
    cases b with
    | nil => exact Or.inr rfl
    | cons y ys =>
      by_cases h : x = y
      · rw [keyLe, if_pos h, keyLe, if_pos h.symm]
        exact ih ys
      · rw [keyLe, if_neg h, keyLe, if_neg (fun hh => h hh.symm)]
        exact cellLe_total x y

theorem keyLe_antisymm : ∀ {a b : List Cell},
    keyLe a b = true → keyLe b a = true → a = b
  | [], [], _, _ => rfl
  | [], _ :: _, _, h2 => by cases h2
  | _ :: _, [], h1, _ => by cases h1
  | x :: xs, y :: ys, h1, h2 => by
    by_cases h : x = y
    · rw [keyLe, if_pos h] at h1
      rw [keyLe, if_pos h.symm] at h2
      rw [h, keyLe_antisymm h1 h2]
    · rw [keyLe, if_neg h] at h1
      rw [keyLe, if_neg (fun hh => h hh.symm)] at h2
      exact absurd (cellLe_antisymm h1 h2) h

theorem keyLe_trans : ∀ {a b c : List Cell},
    keyLe a b = true → keyLe b c = true → keyLe a c = true
  | [], _, _, _, _ => rfl
  | _ :: _, [], _, h1, _ => by cases h1
  | _ :: _, _ :: _, [], _, h2 => by cases h2
  | x :: xs, y :: ys, z :: zs, h1, h2 => by
    by_cases hxy : x = y
    · subst hxy
      rw [keyLe, if_pos rfl] at h1
      by_cases hyz : x = z
      · rw [keyLe, if_pos hyz] at h2 ⊢
        exact keyLe_trans h1 h2
      · rw [keyLe, if_neg hyz] at h2 ⊢
        exact h2
    · rw [keyLe, if_neg hxy] at h1
      by_cases hyz : y = z
      · subst hyz
        rw [keyLe, if_neg hxy]
        exact h1
      · rw [keyLe, if_neg hyz] at h2
        by_cases hxz : x = z
        · subst hxz
          exact absurd (cellLe_antisymm h1 h2) hxy
        · rw [keyLe, if_neg hxz]
          exact cellLe_trans h1 h2

instance : IsTotal (List Cell) keyLeP := ⟨keyLe_total⟩
instance : IsTrans (List Cell) keyLeP := ⟨fun _ _ _ => keyLe_trans⟩
instance : IsAntisymm (List Cell) keyLeP := ⟨fun _ _ => keyLe_antisymm⟩

instance (c : String) : IsTotal Row (rowLeBy c) :=
  ⟨fun a b => cellLe_total (getCell a c) (getCell b c)⟩
instance (c : String) : IsTrans Row (rowLeBy c) :=
  ⟨fun _ _ _ h1 h2 => cellLe_trans h1 h2⟩

theorem optDescLe_total : ∀ (oa ob : Option ℚ),
    optDescLe oa ob = true ∨ optDescLe ob oa = true
  | none, none => Or.inl rfl
  | none, some _ => Or.inr rfl
  | some _, none => Or.inl rfl
  | some x, some y => by
    rcases le_total y x with h | h
    · exact Or.inl (decide_eq_true h)
    · exact Or.inr (decide_eq_true h)

theorem optDescLe_trans : ∀ {oa ob oc : Option ℚ},
    optDescLe oa ob = true → optDescLe ob oc = true → optDescLe oa oc = true
  | none, none, none, _, _ => rfl
  | none, none, some _, _, h2 => by cases h2
  | none, some _, _, h1, _ => by cases h1
  | some _, _, none, _, _ => rfl
  | some _, none, some _, _, h2 => by cases h2
  | some x, some y, some z, h1, h2 =>
    decide_eq_true (le_trans (of_decide_eq_true h2) (of_decide_eq_true h1))

theorem rateDescLeB_total (a b : Row) :
    rateDescLeB a b = true ∨ rateDescLeB b a = true := optDescLe_total _ _

theorem rateDescLeB_trans {a b c : Row} (h1 : rateDescLeB a b = true)
    (h2 : rateDescLeB b c = true) : rateDescLeB a c = true :=
  optDescLe_trans h1 h2

instance : IsTotal Row rateDescLe := ⟨rateDescLeB_total⟩
instance : IsTrans Row rateDescLe := ⟨fun _ _ _ => rateDescLeB_trans⟩

/- `groupbyAgg` lemmas. -/

theorem qSum_perm {l1 l2 : List ℚ} (h : List.Perm l1 l2) : qSum l1 = qSum l2 := by
  rw [qSum_eq, qSum_eq]
  exact h.sum_eq

theorem aggVals_perm {c1 c2 : List Cell} (h : List.Perm c1 c2) (a : AggFun) :
    aggVals a c1 = aggVals a c2 := by
  have hf : List.Perm (c1.filterMap numOf) (c2.filterMap numOf) := h.filterMap _
  cases a with
  | mean =>
    by_cases h1 : c1.filterMap numOf = []
    · have h2 : c2.filterMap numOf = [] :=
        List.length_eq_zero.mp (by rw [← hf.length_eq, h1]; rfl)
      rw [aggVals, aggVals, if_pos h1, if_pos h2]
    · have h2 : ¬ c2.filterMap numOf = [] := fun hh =>
        h1 (List.length_eq_zero.mp (by rw [hf.length_eq, hh]; rfl))
      rw [aggVals, aggVals, if_neg h1, if_neg h2, qSum_perm hf, hf.length_eq]
  | sum => rw [aggVals, aggVals, qSum_perm hf]

theorem groupbyAgg_perm {rows1 rows2 : List Row} (h : List.Perm rows1 rows2)
    (keys : List String) (aggs : List (String × AggFun)) :
    groupbyAgg rows1 keys aggs = groupbyAgg rows2 keys aggs := by
  have hvalid : List.Perm (rowsWithKeys keys rows1) (rowsWithKeys keys rows2) :=
    h.filter _
  have hkeys : sortedKeys keys rows1 = sortedKeys keys rows2 := by
    refine List.eq_of_perm_of_sorted ?_ (List.sorted_insertionSort _ _)
      (List.sorted_insertionSort _ _)
    exact ((List.perm_insertionSort keyLeP _).trans
      ((hvalid.map (keyOf keys)).dedup)).trans
      (List.perm_insertionSort keyLeP _).symm
  rw [groupbyAgg, groupbyAgg, hkeys]
  refine List.map_congr_left (fun k _ => ?_)
  refine congrArg (_ ++ ·) ?_
  refine List.map_congr_left (fun ca _ => ?_)
  exact congrArg (Prod.mk ca.1) (aggVals_perm ((hvalid.filter _).map _) ca.2)

theorem length_groupbyAgg (rows : List Row) (keys : List String)
    (aggs : List (String × AggFun)) :
    (groupbyAgg rows keys aggs).length =
      ((rowsWithKeys keys rows).map (keyOf keys)).dedup.length := by
  rw [groupbyAgg, List.length_map, sortedKeys, List.length_insertionSort]

theorem mem_groupbyAgg {rows : List Row} {keys : List String}
    {aggs : List (String × AggFun)} {r' : Row} (h : r' ∈ groupbyAgg rows keys aggs) :
    ∃ src ∈ rowsWithKeys keys rows,
      r' = keys.zip (keyOf keys src) ++ aggs.map (fun ca =>
        (ca.1, aggVals ca.2 (((rowsWithKeys keys rows).filter
          (fun r => keyOf keys r == keyOf keys src)).map (fun r => getCell r ca.1)))) := by
  rw [groupbyAgg] at h
  obtain ⟨k, hk, rfl⟩ := List.mem_map.mp h
  rw [sortedKeys, List.mem_insertionSort, List.mem_dedup] at hk
  obtain ⟨src, hsrc, rfl⟩ := List.mem_map.mp hk
  exact ⟨src, hsrc, rfl⟩

theorem perm_eq_nil {α : Type} {l1 l2 : List α} (h : List.Perm l1 l2)
    (h1 : l1 = []) : l2 = [] :=
  List.length_eq_zero.mp (by rw [← h.length_eq, h1]; rfl)

/-- C10: grouped aggregation is order-independent — permuting the rows
of the input table leaves the income table (grouped means of the rate
columns, grouped sum of the weight column, sorted by decile) unchanged.
Exact rational arithmetic makes mean and sum order-independent. -/
theorem create_income_table_order_independent (df1 df2 : DataFrame)
    (hcols : df1.cols = df2.cols) (hrows : List.Perm df1.rows df2.rows) :
    create_income_table df1 = create_income_table df2 := by
  have hsel : List.Perm (df1.rows.filter income_sel) (df2.rows.filter income_sel) :=
    hrows.filter _
  by_cases h1 : df1.rows.filter income_sel = []
  · rw [create_income_table, create_income_table, if_pos h1,
      if_pos (perm_eq_nil hsel h1)]
  · have h2 : ¬ df2.rows.filter income_sel = [] := fun hh =>
      h1 (perm_eq_nil hsel.symm hh)
    rw [create_income_table, create_income_table, if_neg h1, if_neg h2]
    have hinc : List.Perm (incomeRows df1) (incomeRows df2) := (hsel.map _).filter _
    refine DataFrame.ext' ?_ ?_ <;> dsimp only
    · rw [hcols]
    · rw [hcols, groupbyAgg_perm hinc]

/-- C8: a grouping dimension with no matching rows yields an empty
table, never an error: each builder returns the empty table when its
row filter selects nothing (for the time-series builder, also when the
`year` column itself is absent, including through `make_tables`). -/
theorem builders_empty_on_no_match (df : DataFrame) :
    (df.rows.filter income_sel = [] → create_income_table df = DataFrame.empty) ∧
    (df.rows.filter (groupage_sel "FISC_REG_S") = [] →
      create_region_table df = DataFrame.empty) ∧
    (df.rows.filter (groupage_sel "EAR_DIPLR_S") = [] →
      create_education_table df = DataFrame.empty) ∧
    (df.rows.filter (groupage_sel "EAR_GS_S") = [] →
      create_csp_table df = DataFrame.empty) ∧
    (df.rows.filter demo_sel = [] → create_demographics_table df = DataFrame.empty) ∧
    (df.rows.filter year_sel = [] → create_timeseries_table df = DataFrame.empty) ∧
    ("year" ∉ df.cols → create_timeseries_table df = DataFrame.empty) ∧
    ("year" ∉ df.cols → (make_tables df none).timeseries = DataFrame.empty) := by
  refine ⟨fun h => ?_, fun h => ?_, fun h => ?_, fun h => ?_, fun h => ?_,
    fun h => ?_, fun h => ?_, fun h => ?_⟩
  · rw [create_income_table, if_pos h]
  · rw [create_region_table, groupageTable, if_pos h]
  · rw [create_education_table, groupageTable, if_pos h]
  · rw [create_csp_table, groupageTable, if_pos h]
  · rw [create_demographics_table, if_pos h]
  · rw [create_timeseries_table]
    by_cases hy : "year" ∉ df.cols
    · rw [if_pos hy]
    · rw [if_neg hy, if_pos h]
  · rw [create_timeseries_table, if_pos h]
  · show (if "year" ∈ df.cols then create_timeseries_table df else DataFrame.empty) =
      DataFrame.empty
    rw [if_neg h]

/- Helpers for reading the key cells of grouped output rows. -/

theorem getCell_cons_ne {kv : String × Cell} {t : Row} {c : String}
    (h : ¬ kv.1 = c) : getCell (kv :: t) c = getCell t c := by
  rw [getCell, if_neg h]

theorem getCell_mem {r : Row} {c : String} (hk : hasKey r c = true) :
    (c, getCell r c) ∈ r := by
  induction r with
  | nil => cases hk
  | cons kv t ih =>
    rw [hasKey] at hk
    by_cases h1 : kv.1 = c
    · rw [getCell, if_pos h1]
      have h2 : (c, kv.2) = kv := by rw [← h1]
      rw [h2]
      exact List.mem_cons_self kv t
    · rw [if_neg h1] at hk
      rw [getCell, if_neg h1]
      exact List.mem_cons_of_mem kv (ih hk)

theorem getCell_renameKey_head (old nm : String) (x : Cell) (rest : Row) :
    getCell (renameKey old nm ((old, x) :: rest)) nm = x := by
  rw [renameKey, List.map_cons]
  rw [show (if ((old, x) : String × Cell).1 = old then (nm, ((old, x) : String × Cell).2)
      else (old, x)) = (nm, x) from if_pos rfl]
  exact getCell_cons_self (nm, x) _

theorem toNumericCell_num_or_missing (x : Cell) :
    (∃ q, toNumericCell x = Cell.num q) ∨ toNumericCell x = Cell.missing := by
  cases x with
  | str s =>
    rw [toNumericCell]
    rcases parseNum s with _ | q
    · exact Or.inr rfl
    · exact Or.inl ⟨q, rfl⟩
  | num q => exact Or.inl ⟨q, rfl⟩
  | missing => exact Or.inr rfl

theorem mem_addYear_year_cases {d : DataFrame}
    (h : "year" ∈ (addYear d).cols) : "year" ∈ d.cols ∨ "annee" ∈ d.cols := by
  rw [addYear] at h
  split at h
  · exact Or.inr (by assumption)
  · exact Or.inl h

theorem getCell_zip3_head (k1 k2 k3 : String) (src tail : Row) :
    getCell (([k1, k2, k3].zip (keyOf [k1, k2, k3] src)) ++ tail) k1 =
      getCell src k1 := by
  show getCell ((k1, getCell src k1) :: (k2, getCell src k2) ::
    (k3, getCell src k3) :: tail) k1 = getCell src k1
  exact getCell_cons_self _ _

theorem getCell_zip4_head (k1 k2 k3 k4 : String) (src tail : Row) :
    getCell (([k1, k2, k3, k4].zip (keyOf [k1, k2, k3, k4] src)) ++ tail) k1 =
      getCell src k1 := by
  show getCell ((k1, getCell src k1) :: (k2, getCell src k2) ::
    (k3, getCell src k3) :: (k4, getCell src k4) :: tail) k1 = getCell src k1
  exact getCell_cons_self _ _

theorem getCell_zip4_second (k1 k2 k3 k4 : String) (src tail : Row)
    (h : ¬ k1 = k2) :
    getCell (([k1, k2, k3, k4].zip (keyOf [k1, k2, k3, k4] src)) ++ tail) k2 =
      getCell src k2 := by
  show getCell ((k1, getCell src k1) :: (k2, getCell src k2) ::
    (k3, getCell src k3) :: (k4, getCell src k4) :: tail) k2 = getCell src k2
  rw [getCell_cons_ne h]
  exact getCell_cons_self _ _

theorem getCell_renameKey_zip3 (nm k2 k3 : String) (src tail : Row) :
    getCell (renameKey "valGroupage" nm
      ((["valGroupage", k2, k3].zip (keyOf ["valGroupage", k2, k3] src)) ++ tail)) nm =
      getCell src "valGroupage" := by
  show getCell (renameKey "valGroupage" nm
    (("valGroupage", getCell src "valGroupage") :: (k2, getCell src k2) ::
      (k3, getCell src k3) :: tail)) nm = getCell src "valGroupage"
  exact getCell_renameKey_head _ _ _ _

theorem groupageTable_key_not_nan (v nm : String) (df : DataFrame) :
    ∀ r' ∈ (groupageTable v nm df).rows, getCell r' nm ≠ Cell.str "nan" := by
  intro r' hr'
  rw [groupageTable] at hr'
  split at hr'
  · cases hr'
  · obtain ⟨g, hg, rfl⟩ := List.mem_map.mp hr'
    obtain ⟨src, hsrc, rfl⟩ := mem_groupbyAgg hg
    rw [getCell_renameKey_zip3]
    have hpred := (List.mem_filter.mp (List.mem_filter.mp hsrc).1).2
    rw [groupage_sel] at hpred
    simp only [Bool.and_eq_true, bne_iff_ne, ne_eq] at hpred
    exact hpred.2

/-- C7: no grouped-aggregate row carries a grouping key equal to the
literal string `"nan"` (the string-coerced form of a missing
categorical value): the income decile is always numeric, the region /
education / CSP / demographics keys are filtered before aggregation,
and the `year` key of the time-series table built from a cleaned table
(whose raw table does not already carry a `year` column) is numeric. -/
theorem builders_exclude_nan_keys :
    (∀ df : DataFrame, ∀ r' ∈ (create_income_table df).rows,
       ∃ q, getCell r' "income_decile" = Cell.num q) ∧
    (∀ df : DataFrame, ∀ r' ∈ (create_region_table df).rows,
       getCell r' "region_code" ≠ Cell.str "nan") ∧
    (∀ df : DataFrame, ∀ r' ∈ (create_education_table df).rows,
       getCell r' "education_level" ≠ Cell.str "nan") ∧
    (∀ df : DataFrame, ∀ r' ∈ (create_csp_table df).rows,
       getCell r' "csp_group" ≠ Cell.str "nan") ∧
    (∀ df : DataFrame, ∀ r' ∈ (create_demographics_table df).rows,
       getCell r' "varGroupage" ≠ Cell.str "nan" ∧
       getCell r' "valGroupage" ≠ Cell.str "nan") ∧
    (∀ df₀ : DataFrame, "year" ∉ df₀.cols →
       ∀ r' ∈ (create_timeseries_table (clean_data df₀)).rows,
       ∃ q, getCell r' "year" = Cell.num q) := by
  refine ⟨?_, ?_, ?_, ?_, ?_, ?_⟩
  · intro df r' hr'
    rw [create_income_table] at hr'
    split at hr'
    · cases hr'
    · dsimp only at hr'
      rw [sort_values, List.mem_insertionSort] at hr'
      obtain ⟨src, hsrc, rfl⟩ := mem_groupbyAgg hr'
      rw [getCell_zip3_head]
      have hmem := (List.mem_filter.mp hsrc).1
      rw [incomeRows] at hmem
      have hpred := (List.mem_filter.mp hmem).2
      obtain ⟨r₀, _, rfl⟩ := List.mem_map.mp (List.mem_filter.mp hmem).1
      rw [incomeCast, getCell_setEntry_self] at hpred ⊢
      rcases toNumericCell_num_or_missing (getCell r₀ "valGroupage") with ⟨q, hq⟩ | hq
      · exact ⟨q, hq⟩
      · rw [hq] at hpred
        cases hpred
  · exact fun df => groupageTable_key_not_nan _ _ df
  · exact fun df => groupageTable_key_not_nan _ _ df
  · exact fun df => groupageTable_key_not_nan _ _ df
  · intro df r' hr'
    rw [create_demographics_table] at hr'
    split at hr'
    · cases hr'
    · dsimp only at hr'
      obtain ⟨src, hsrc, rfl⟩ := mem_groupbyAgg hr'
      rw [getCell_zip4_head, getCell_zip4_second _ _ _ _ _ _ (by decide)]
      have hpred := (List.mem_filter.mp (List.mem_filter.mp hsrc).1).2
      rw [demo_sel] at hpred
      simp only [Bool.and_eq_true, Bool.or_eq_true, beq_iff_eq, bne_iff_ne, ne_eq]
        at hpred
      refine ⟨?_, hpred.2⟩
      rcases hpred.1.1 with h | h <;> rw [h] <;> decide
  · intro df₀ hy r' hr'
    rw [create_timeseries_table] at hr'
    split at hr'
    · cases hr'
    · split at hr'
      · cases hr'
      · rename_i hyc _
        dsimp only at hr'
        rw [sort_values, List.mem_insertionSort] at hr'
        obtain ⟨src, hsrc, rfl⟩ := mem_groupbyAgg hr'
        rw [getCell_zip3_head]
        have hA : "annee" ∈ df₀.cols := by
          rw [not_not] at hyc
          rcases mem_addYear_year_cases (clean_data_cols_eq df₀ ▸ hyc) with h | h
          · rw [dropnaSubset_cols] at h
            exact absurd h hy
          · rwa [dropnaSubset_cols] at h
        have hsrcRow : src ∈ (clean_data df₀).rows :=
          List.mem_of_mem_filter (List.mem_filter.mp hsrc).1
        have hpred := (List.mem_filter.mp (List.mem_filter.mp hsrc).1).2
        rw [year_sel] at hpred
        have hnm : getCell src "year" ≠ Cell.missing := by simpa using hpred
        have h4 := (clean_data_rows_spec df₀ hsrcRow).2.2.2 hA
        have hval : getCell src "year" = toNumericCell (getCell src "annee") :=
          h4.2 ("year", getCell src "year")
            (getCell_mem (hasKey_of_getCell_ne_missing hnm)) rfl
        rcases toNumericCell_num_or_missing (getCell src "annee") with ⟨q, hq⟩ | hq
        · exact ⟨q, by rw [hval, hq]⟩
        · rw [hq] at hval
          exact absurd hval hnm

theorem getCell_zip3_second (k1 k2 k3 : String) (src tail : Row) (h : ¬ k1 = k2) :
    getCell (([k1, k2, k3].zip (keyOf [k1, k2, k3] src)) ++ tail) k2 =
      getCell src k2 := by
  show getCell ((k1, getCell src k1) :: (k2, getCell src k2) ::
    (k3, getCell src k3) :: tail) k2 = getCell src k2
  rw [getCell_cons_ne h]
  exact getCell_cons_self _ _

theorem getCell_zip3_third (k1 k2 k3 : String) (src tail : Row)
    (h1 : ¬ k1 = k3) (h2 : ¬ k2 = k3) :
    getCell (([k1, k2, k3].zip (keyOf [k1, k2, k3] src)) ++ tail) k3 =
      getCell src k3 := by
  show getCell ((k1, getCell src k1) :: (k2, getCell src k2) ::
    (k3, getCell src k3) :: tail) k3 = getCell src k3
  rw [getCell_cons_ne h1, getCell_cons_ne h2]
  exact getCell_cons_self _ _

/-- Every row of the income table comes from a selected input row, with
the decile being its coerced grouping value and the disease / rate-type
labels carried over. -/
theorem income_table_row_provenance (df : DataFrame) :
    ∀ r' ∈ (create_income_table df).rows,
      ∃ src ∈ df.rows, income_sel src = true ∧
        getCell r' "income_decile" = toNumericCell (getCell src "valGroupage") ∧
        getCell r' "varTauxLib" = getCell src "varTauxLib" ∧
        getCell r' "type" = getCell src "type" := by
  intro r' hr'
  rw [create_income_table] at hr'
  split at hr'
  · cases hr'
  · dsimp only at hr'
    rw [sort_values, List.mem_insertionSort] at hr'
    obtain ⟨src', hsrc', rfl⟩ := mem_groupbyAgg hr'
    have hmem := (List.mem_filter.mp hsrc').1
    rw [incomeRows] at hmem
    obtain ⟨src, hsrcmem, rfl⟩ := List.mem_map.mp (List.mem_filter.mp hmem).1
    refine ⟨src, (List.mem_filter.mp hsrcmem).1, (List.mem_filter.mp hsrcmem).2,
      ?_, ?_, ?_⟩
    · rw [getCell_zip3_head, incomeCast, getCell_setEntry_self]
    · rw [getCell_zip3_second _ _ _ _ _ (by decide), incomeCast,
        getCell_setEntry_ne (by decide)]
    · rw [getCell_zip3_third _ _ _ _ _ (by decide) (by decide), incomeCast,
        getCell_setEntry_ne (by decide)]

/-- Every decile cell of the income table is numeric (the failed casts
are dropped before grouping). -/
theorem income_table_decile_num (df : DataFrame) :
    ∀ r' ∈ (create_income_table df).rows,
      ∃ q, getCell r' "income_decile" = Cell.num q := by
  intro r' hr'
  rw [create_income_table] at hr'
  split at hr'
  · cases hr'
  · dsimp only at hr'
    rw [sort_values, List.mem_insertionSort] at hr'
    obtain ⟨src, hsrc, rfl⟩ := mem_groupbyAgg hr'
    rw [getCell_zip3_head]
    have hmem := (List.mem_filter.mp hsrc).1
    rw [incomeRows] at hmem
    have hpred := (List.mem_filter.mp hmem).2
    obtain ⟨r₀, _, rfl⟩ := List.mem_map.mp (List.mem_filter.mp hmem).1
    rw [incomeCast, getCell_setEntry_self] at hpred ⊢
    rcases toNumericCell_num_or_missing (getCell r₀ "valGroupage") with ⟨q, hq⟩ | hq
    · exact ⟨q, hq⟩
    · rw [hq] at hpred
      cases hpred

/-- C6 counterexample: a grouping value that numerically coerces to
5/2 survives the income builder as decile 5/2 — it is neither dropped
nor an integer between 1 and 10, so the cast is plain numeric coercion,
not a cast to "integer 1–10". -/
theorem create_income_table_noninteger_decile :
    (create_income_table exIncomeBad).rows.map (fun r => getCell r "income_decile") =
      [Cell.num (mkRat 5 2)] ∧
    Cell.num (mkRat 5 2) ∉ (List.range 10).map (fun i => Cell.num ((i + 1 : ℕ) : ℚ)) := by
  constructor <;> decide

/-- C6 (amended): the income builder selects exactly the rows carrying
the income-decile grouping variable with a present, non-`"nan"`
grouping value, casts the grouping value by numeric coercion — dropping
only rows whose value fails that coercion, with no integrality or 1–10
range check — groups by (decile, disease, rate type) with mean rates
and summed weights, and sorts by decile ascending; on the two-row
example the result is exactly the two-row table with rates 12 and 4 and
the inequality ratio 3. -/
theorem create_income_table_spec :
    (∀ df : DataFrame, ∀ r' ∈ (create_income_table df).rows,
       ∃ src ∈ df.rows, income_sel src = true ∧
         getCell r' "income_decile" = toNumericCell (getCell src "valGroupage") ∧
         getCell r' "varTauxLib" = getCell src "varTauxLib" ∧
         getCell r' "type" = getCell src "type") ∧
    (∀ df : DataFrame, ∀ r' ∈ (create_income_table df).rows,
       ∃ q, getCell r' "income_decile" = Cell.num q) ∧
    (∀ df : DataFrame,
       (create_income_table df).rows.Pairwise (rowLeBy "income_decile")) ∧
    create_income_table (clean_data exIncomeRaw) =
      { cols := ["income_decile", "varTauxLib", "type", "txStandDir"],
        rows :=
          [[("income_decile", Cell.num 1),
            ("varTauxLib", Cell.str "Diabetes"),
            ("type", Cell.str "prevalence"),
            ("txStandDir", Cell.num 12)],
           [("income_decile", Cell.num 10),
            ("varTauxLib", Cell.str "Diabetes"),
            ("type", Cell.str "prevalence"),
            ("txStandDir", Cell.num 4)]] } ∧
    calculate_inequality_ratio (create_income_table (clean_data exIncomeRaw))
      "Diabetes" "prevalence" = some 3 := by
  refine ⟨income_table_row_provenance, income_table_decile_num, ?_, by decide, by decide⟩
  intro df
  rw [create_income_table]
  split
  · exact List.Pairwise.nil
  · dsimp only
    exact List.sorted_insertionSort (rowLeBy "income_decile") _

/- `get_top_diseases` lemmas. -/

theorem dedup_length_map_inj {α β : Type} [DecidableEq α] [DecidableEq β]
    {f : α → β} (hf : ∀ a b, f a = f b → a = b) (l : List α) :
    ((l.map f).dedup).length = l.dedup.length := by
  induction l with
  | nil => rfl
  | cons a t ih =>
    by_cases h : a ∈ t
    · rw [List.dedup_cons_of_mem h, List.map_cons,
        List.dedup_cons_of_mem (List.mem_map_of_mem f h), ih]
    · have hm : f a ∉ t.map f := by
        intro hm
        obtain ⟨b, hb, he⟩ := List.mem_map.mp hm
        exact h (hf b a he ▸ hb)
      rw [List.dedup_cons_of_not_mem h, List.map_cons,
        List.dedup_cons_of_not_mem hm, List.length_cons, List.length_cons, ih]

theorem rowsWithKeys_single (rows : List Row) :
    rowsWithKeys ["varTauxLib"] rows =
      rows.filter (fun r => getCell r "varTauxLib" != Cell.missing) := by
  rw [rowsWithKeys]
  refine List.filter_congr (fun r _ => ?_)
  show (["varTauxLib"].all fun k => getCell r k != Cell.missing) = _
  rw [List.all_cons, List.all_nil, Bool.and_true]

theorem disease_rates_keys (df : DataFrame) (by_ : String) :
    ((rowsWithKeys ["varTauxLib"] (df.rows.filter (typeSel by_))).map
      (keyOf ["varTauxLib"])) = (labelCells df by_).map (fun c => [c]) := by
  rw [labelCells, rowsWithKeys_single, filter_map_comm, List.map_map]
  rfl

theorem disease_rates_length (df : DataFrame) (by_ : String) :
    (disease_rates df by_).length = (labelCells df by_).dedup.length := by
  rw [disease_rates, length_groupbyAgg, disease_rates_keys,
    dedup_length_map_inj (fun a b h => by simpa using h)]

theorem get_top_diseases_perm (sortAlg : List Row → List Row)
    {df1 df2 : DataFrame} (h : List.Perm df1.rows df2.rows)
    (n : Nat) (by_ : String) :
    get_top_diseases sortAlg df1 n by_ = get_top_diseases sortAlg df2 n by_ := by
  have hf : List.Perm (df1.rows.filter (typeSel by_))
      (df2.rows.filter (typeSel by_)) := h.filter _
  have hdr : disease_rates df1 by_ = disease_rates df2 by_ := by
    rw [disease_rates, disease_rates]
    exact groupbyAgg_perm hf _ _
  rw [get_top_diseases, get_top_diseases, hdr]
  by_cases h1 : df1.rows = []
  · rw [if_pos h1, if_pos (perm_eq_nil h h1)]
  · rw [if_neg h1, if_neg (fun h2 => h1 (perm_eq_nil h.symm h2))]
    by_cases h3 : df1.rows.filter (typeSel by_) = []
    · rw [if_pos h3, if_pos (perm_eq_nil hf h3)]
    · rw [if_neg h3, if_neg (fun h4 => h3 (perm_eq_nil hf.symm h4))]

/-- C9 (amended): `get_top_diseases` filters to the requested rate
type, groups by disease label (dropping rows whose label is missing)
and computes the exact mean rate per label; for every sort behaviour
admitted by `sort_values('txStandDir', ascending=False)` — a
permutation of the grouped rows sorted descending by mean rate, the
tie order among equal rates being unspecified because the default
quicksort is not stable — it returns exactly `min n (number of
distinct non-missing labels)` entries, read off rows sorted descending
by mean rate; and for any fixed sort behaviour the result is
deterministic and unchanged under any reordering of the input rows,
because the groupby canonicalizes the grouped table before the
sort. -/
theorem get_top_diseases_spec :
    (∀ (sortAlg : List Row → List Row) (df : DataFrame) (n : Nat) (by_ : String),
      descSortSpec (disease_rates df by_) (sortAlg (disease_rates df by_)) →
      (get_top_diseases sortAlg df n by_).length =
        min n (labelCells df by_).dedup.length) ∧
    (∀ (sortAlg : List Row → List Row) (df : DataFrame) (n : Nat) (by_ : String),
      descSortSpec (disease_rates df by_) (sortAlg (disease_rates df by_)) →
      ((sortAlg (disease_rates df by_)).take n).Pairwise rateDescLe ∧
      get_top_diseases sortAlg df n by_ =
        (if df.rows = [] then []
         else if df.rows.filter (typeSel by_) = [] then []
         else ((sortAlg (disease_rates df by_)).take n).map
           (fun r => getCell r "varTauxLib"))) ∧
    (∀ (sortAlg : List Row → List Row) (df1 df2 : DataFrame) (n : Nat)
        (by_ : String),
      List.Perm df1.rows df2.rows →
      get_top_diseases sortAlg df1 n by_ = get_top_diseases sortAlg df2 n by_) := by
  refine ⟨?_,
    fun sortAlg df n by_ h => ⟨h.2.sublist (List.take_sublist n _), rfl⟩,
    fun sortAlg df1 df2 n by_ h => get_top_diseases_perm sortAlg h n by_⟩
  intro sortAlg df n by_ h
  rw [get_top_diseases]
  by_cases h1 : df.rows = []
  · rw [if_pos h1, labelCells, h1]
    show 0 = min n 0
    exact (Nat.min_zero n).symm
  · rw [if_neg h1]
    by_cases h2 : df.rows.filter (typeSel by_) = []
    · rw [if_pos h2, labelCells, h2]
      show 0 = min n 0
      exact (Nat.min_zero n).symm
    · rw [if_neg h2, List.length_map, List.length_take, ← h.1.length_eq,
        disease_rates_length]

/-- C9 counterexample: the claimed stable tie-break is not a property
of the program.  On a grouped table whose two mean rates are equal,
the stable order and its reverse both satisfy everything
`sort_values('txStandDir', ascending=False)` guarantees of its
non-stable default quicksort (`descSortSpec`), yet they make
`get_top_diseases` return the tied labels in different orders — so the
source does not determine the tie order, let alone tie it to the
pre-sort row order. -/
theorem get_top_diseases_tie_not_determined :
    descSortSpec (disease_rates exTie "prevalence")
      (stableSort (disease_rates exTie "prevalence")) ∧
    descSortSpec (disease_rates exTie "prevalence")
      (revTieSort (disease_rates exTie "prevalence")) ∧
    get_top_diseases stableSort exTie 2 "prevalence" =
      [Cell.str "A", Cell.str "B"] ∧
    get_top_diseases revTieSort exTie 2 "prevalence" =
      [Cell.str "B", Cell.str "A"] ∧
    get_top_diseases stableSort exTie 2 "prevalence" ≠
      get_top_diseases revTieSort exTie 2 "prevalence" :=
  ⟨by decide, by decide, by decide, by decide, by decide⟩

theorem get_top_diseases_spec_witness :
    get_top_diseases stableSort exIncomeRaw 2 "prevalence" =
      get_top_diseases stableSort exIncomeRawRev 2 "prevalence" ∧
    (get_top_diseases stableSort exIncomeRaw 2 "prevalence").length =
      min 2 (labelCells exIncomeRaw "prevalence").dedup.length :=
  ⟨get_top_diseases_spec.2.2 stableSort exIncomeRaw exIncomeRawRev 2
      "prevalence" (by decide),
   get_top_diseases_spec.1 stableSort exIncomeRaw 2 "prevalence" (by decide)⟩

theorem clean_data_spec_witness :
    (clean_data exIncomeRaw).rows.length =
      (exIncomeRaw.rows.filter keepRow).length ∧
    (∀ r ∈ (clean_data exIncomeRaw).rows,
       getCell r "varTauxLib" ≠ Cell.missing ∧ getCell r "type" ≠ Cell.missing) ∧
    (∀ c ∈ numeric_cols, c ∈ exIncomeRaw.cols →
       (clean_data exIncomeRaw).rows.map (fun r => getCell r c) =
       (exIncomeRaw.rows.filter keepRow).map (fun r => toNumericCell (getCell r c))) :=
  clean_data_spec exIncomeRaw (by decide) (by decide)

theorem create_income_table_order_independent_witness :
    create_income_table exIncomeRaw = create_income_table exIncomeRawRev :=
  create_income_table_order_independent exIncomeRaw exIncomeRawRev
    (by decide) (by decide)

/-- C3 counterexample: on an absent file, `load_eurostat_csv` does not
return an empty table — `pd.read_csv` raises and the body has no
handler, so the exception propagates to the caller. -/
theorem load_eurostat_csv_missing_file :
    load_eurostat_csv (fun _ => none) "data/eurostat.csv" =
      Except.error "read_csv raised" ∧
    load_eurostat_csv (fun _ => none) "data/eurostat.csv" ≠
      Except.ok DataFrame.empty := by
  refine ⟨rfl, ?_⟩
  intro h
  exact Except.noConfusion h

/-- C3 (amended): the loader returns the processed raw table when the
file reads; when the file is absent or unparsable, `read_csv` raises
and the exception propagates uncaught — the loader returns no empty
table and handles nothing.  On the concrete two-row example the
successful read yields the processed table (normalised header, `PC`
rows only, coerced `year` and `obs_value`, label and ISO-3 columns). -/
theorem load_eurostat_csv_spec (fs : String → Option DataFrame) (path : String) :
    (fs path = none →
      load_eurostat_csv fs path = Except.error "read_csv raised") ∧
    (∀ raw : DataFrame, fs path = some raw →
      load_eurostat_csv fs path = processEurostat raw) ∧
    load_eurostat_csv (fun p => if p = "e.csv" then some exEuroRaw else none)
        "e.csv" =
      Except.ok
        ⟨["unit", "time_period", "obs_value", "sex", "age", "geo", "year",
          "sex_label", "age_label", "age_bucket_label", "iso3"],
         [[("unit", Cell.str "PC"), ("time_period", Cell.str "2020"),
           ("obs_value", Cell.num (mkRat 25 2)), ("sex", Cell.str "F"),
           ("age", Cell.str "Y18-24"), ("geo", Cell.str "fr"),
           ("year", Cell.num 2020), ("sex_label", Cell.str "Women"),
           ("age_label", Cell.str "Y18-24"),
           ("age_bucket_label", Cell.str "18-24"),
           ("iso3", Cell.str "FRA")]]⟩ := by
  refine ⟨?_, ?_, ?_⟩
  · intro h
    rw [load_eurostat_csv, h]
  · intro raw h
    rw [load_eurostat_csv, h]
  · rfl

/-- C1: `calculate_inequality_ratio` returns a defined value (`some`)
exactly when the decile column exists, the `(disease, type)`-filtered
table has both a decile-1 row and a decile-10 row, and the first
decile-10 rate is a non-zero number; the value is then the exact
quotient of the first decile-1 rate by the first decile-10 rate.  In
every other case it returns the explicit undefined value (`none`,
Python `NaN`): it never divides by zero and never substitutes a
default.  On the two-row example table (rates 12 and 4) the ratio is
exactly 3. -/
theorem calculate_inequality_ratio_spec :
    (∀ (df : DataFrame) (disease type_ : String) (v : ℚ),
      calculate_inequality_ratio df disease type_ = some v ↔
        ("income_decile" ∈ df.cols ∧
         ∃ a b : ℚ,
           (decileRates df disease type_ 1).head? = some (Cell.num a) ∧
           (decileRates df disease type_ 10).head? = some (Cell.num b) ∧
           b ≠ 0 ∧ v = a / b)) ∧
    calculate_inequality_ratio (create_income_table (clean_data exIncomeRaw))
      "Diabetes" "prevalence" = some 3 := by
  refine ⟨?_, by decide⟩
  intro df disease type_ v
  constructor
  · intro h
    by_cases h1 : df.rows = []
    · rw [calculate_inequality_ratio, if_pos h1] at h
      exact Option.noConfusion h
    · rw [calculate_inequality_ratio, if_neg h1] at h
      by_cases h2 : df.rows.filter (diseaseTypeSel disease type_) = [] ∨
          "income_decile" ∉ df.cols
      · rw [if_pos h2] at h
        exact Option.noConfusion h
      · rw [if_neg h2] at h
        have hcol : "income_decile" ∈ df.cols :=
          Decidable.not_not.mp (not_or.mp h2).2
        refine ⟨hcol, ?_⟩
        cases hdr1 : decileRates df disease type_ 1 with
        | nil =>
          rw [hdr1] at h
          exact Option.noConfusion h
        | cons c1 t1 =>
          rw [hdr1] at h
          cases hdr10 : decileRates df disease type_ 10 with
          | nil =>
            rw [hdr10] at h
            exact Option.noConfusion h
          | cons c10 t10 =>
            rw [hdr10] at h
            have h' : (if c10 ≠ Cell.num 0 then
                (match c1, c10 with
                 | Cell.num x, Cell.num y => some (qDiv x y)
                 | _, _ => none) else none) = some v := h
            by_cases hne : c10 = Cell.num 0
            · rw [if_neg (fun hk => hk hne)] at h'
              exact Option.noConfusion h'
            · rw [if_pos hne] at h'
              cases c1 with
              | num x =>
                cases c10 with
                | num y =>
                  refine ⟨x, y, rfl, rfl,
                    fun h0 => hne (by rw [h0]), ?_⟩
                  rw [← qDiv_eq]
                  exact (Option.some.inj h').symm
                | str s => exact Option.noConfusion h'
                | missing => exact Option.noConfusion h'
              | str s => exact Option.noConfusion h'
              | missing => exact Option.noConfusion h'
  · rintro ⟨hcol, a, b, hd1, hd10, hb0, hv⟩
    have h1 : ¬ df.rows = [] := by
      intro h1
      rw [show decileRates df disease type_ 1 = [] from by
        rw [decileRates, h1]; rfl] at hd1
      exact Option.noConfusion hd1
    have h2 : ¬(df.rows.filter (diseaseTypeSel disease type_) = [] ∨
        "income_decile" ∉ df.cols) := by
      rintro (hf | hc)
      · rw [show decileRates df disease type_ 1 = [] from by
          rw [decileRates, hf]; rfl] at hd1
        exact Option.noConfusion hd1
      · exact hc hcol
    obtain ⟨t1, ht1⟩ : ∃ t, decileRates df disease type_ 1 = Cell.num a :: t := by
      cases hdr : decileRates df disease type_ 1 with
      | nil =>
        rw [hdr] at hd1
        exact Option.noConfusion hd1
      | cons c t =>
        rw [hdr] at hd1
        exact ⟨t, by rw [Option.some.inj hd1]⟩
    obtain ⟨t10, ht10⟩ : ∃ t, decileRates df disease type_ 10 = Cell.num b :: t := by
      cases hdr : decileRates df disease type_ 10 with
      | nil =>
        rw [hdr] at hd10
        exact Option.noConfusion hd10
      | cons c t =>
        rw [hdr] at hd10
        exact ⟨t, by rw [Option.some.inj hd10]⟩
    rw [calculate_inequality_ratio, if_neg h1, if_neg h2, ht1, ht10]
    show (if Cell.num b ≠ Cell.num 0 then some (qDiv a b) else none) = some v
    rw [if_pos (fun he => hb0 (Cell.num.inj he)), hv, qDiv_eq]

theorem calculate_inequality_ratio_spec_witness :
    "income_decile" ∈ (create_income_table (clean_data exIncomeRaw)).cols ∧
    ∃ a b : ℚ,
      (decileRates (create_income_table (clean_data exIncomeRaw))
        "Diabetes" "prevalence" 1).head? = some (Cell.num a) ∧
      (decileRates (create_income_table (clean_data exIncomeRaw))
        "Diabetes" "prevalence" 10).head? = some (Cell.num b) ∧
      b ≠ 0 ∧ (3 : ℚ) = a / b :=
  (calculate_inequality_ratio_spec.1 (create_income_table (clean_data exIncomeRaw))
    "Diabetes" "prevalence" 3).mp (by decide)
